import Mathlib

/-!
# helper/terraformtype: schema literals of the Terraform plugin SDK

A shallow embedding of `helper/terraformtype/helper_schema_schema.go`: the
classification of composite literals by their resolved type and the extraction of
the fields of a `schema.Schema` literal into a `HelperSchemaSchemaInfo`.

Go interface values (`ast.Expr`, `types.Type`) are inductive types with a `nil`
constructor, pointers to structs that the functions dereference without a check are
plain structures, and a Go map read `m[k]` is a function into `Option`.
-/

set_option autoImplicit false

namespace ast

/-- Expressions of `go/ast`.  `nil` is the nil interface value; `Sel` of a selector is the
name of its identifier; the statements of a function literal and the field lists of
struct, function and interface types are left out, no function here looks into them. -/
inductive Expr where
  | nil
  | BadExpr
  | Ident (Name : String)
  | Ellipsis (Elt : Expr)
  | BasicLit (Kind : String) (Value : String)
  | FuncLit (Type_ : Expr)
  | CompositeLit (Type_ : Expr) (Elts : List Expr)
  | ParenExpr (X : Expr)
  | SelectorExpr (X : Expr) (Sel : String)
  | IndexExpr (X : Expr) (Index : Expr)
  | SliceExpr (X : Expr) (Low : Expr) (High : Expr) (Max : Expr)
  | TypeAssertExpr (X : Expr) (Type_ : Expr)
  | CallExpr (Fun : Expr) (Args : List Expr)
  | StarExpr (X : Expr)
  | UnaryExpr (Op : String) (X : Expr)
  | BinaryExpr (X : Expr) (Op : String) (Y : Expr)
  | KeyValueExpr (Key : Expr) (Value : Expr)
  | ArrayType (Len : Expr) (Elt : Expr)
  | StructType
  | FuncType
  | InterfaceType
  | MapType (Key : Expr) (Value : Expr)
  | ChanType (Value : Expr)

/-- The node `*ast.CompositeLit`: the type expression (nil when elided) and the elements. -/
structure CompositeLit where
  Type_ : Expr
  Elts : List Expr

/-- The node `*ast.KeyValueExpr`. -/
structure KeyValueExpr where
  Key : Expr
  Value : Expr

end ast

namespace types

/-- The declared object of a named type: the path of its package (none in the
universe scope) and its name. -/
structure TypeName where
  Pkg : Option String
  Name : String
  deriving DecidableEq, Repr

/-- Types of `go/types`. `nil` is the nil interface value, which `Info.TypeOf` returns for
an expression without a recorded type. The members of struct, tuple, signature and
interface types are left out: no function here looks at them. -/
inductive GoType where
  | nil
  | Basic (Name : String)
  | Named (Obj : TypeName)
  | Pointer (Elem : GoType)
  | Array (Len : Nat) (Elem : GoType)
  | Slice (Elem : GoType)
  | Map (Key : GoType) (Elem : GoType)
  | Chan (Elem : GoType)
  | Struct
  | Tuple
  | Signature
  | Interface
  deriving DecidableEq, Repr

/-- The type table `*types.Info`, reduced to its `TypeOf` method; a node is looked up by
its structure. -/
structure Info where
  TypeOf : ast.Expr → GoType

end types

namespace schema

/-- The fields of `schema.Schema` that `NewHelperSchemaSchemaInfo` assigns.  A function
value is only ever compared with nil, so a function-typed field (and `Default`, which
receives a function) is `none` for nil and `some ()` for the stub assigned to it;
`ConflictsWith` is `none` for the nil slice.  The defaults are the zero value
`schema.Schema{}`. -/
structure Schema where
  Computed : Bool := false
  ConflictsWith : Option (List String) := none
  Default : Option Unit := none
  Description : String := ""
  DiffSuppressFunc : Option Unit := none
  ForceNew : Bool := false
  MaxItems : Int := 0
  MinItems : Int := 0
  Optional : Bool := false
  Required : Bool := false
  Sensitive : Bool := false
  ValidateFunc : Option Unit := none
  deriving DecidableEq, Repr

end schema

namespace terraformtype

open ast types schema

def SchemaFieldComputed : String := "Computed"
def SchemaFieldConflictsWith : String := "ConflictsWith"
def SchemaFieldDefault : String := "Default"
def SchemaFieldDescription : String := "Description"
def SchemaFieldDiffSuppressFunc : String := "DiffSuppressFunc"
def SchemaFieldForceNew : String := "ForceNew"
def SchemaFieldMaxItems : String := "MaxItems"
def SchemaFieldMinItems : String := "MinItems"
def SchemaFieldOptional : String := "Optional"
def SchemaFieldRequired : String := "Required"
def SchemaFieldSensitive : String := "Sensitive"
def SchemaFieldType : String := "Type"
def SchemaFieldValidateFunc : String := "ValidateFunc"

def SchemaValueTypeBool : String := "TypeBool"
def SchemaValueTypeFloat : String := "TypeFloat"
def SchemaValueTypeInt : String := "TypeInt"
def SchemaValueTypeList : String := "TypeList"
def SchemaValueTypeMap : String := "TypeMap"
def SchemaValueTypeSet : String := "TypeSet"
def SchemaValueTypeString : String := "TypeString"

def TypeNameSchema : String := "Schema"
def TypeNameSet : String := "Set"
def TypeNameValueType : String := "ValueType"

/-- The functions that the file calls and whose sources are not at hand, taken as
parameters: the constant decoders of `helper/astutils` (nil result = `none`) and the
named-type identity check `IsHelperSchemaNamedType`. -/
structure Helpers where
  ExprBoolValue : Expr → Option Bool
  ExprIntValue : Expr → Option Int
  ExprStringValue : Expr → Option String
  IsHelperSchemaNamedType : TypeName → String → Bool

/-- Modelled from the spec: `astCompositeLitFields` is called by
`NewHelperSchemaSchemaInfo` and its source is missing.  The spec: "scan its key-value
elements (positional elements are invalid for this schema shape and unsupported) to
build a FieldRecord, last-write-wins on duplicate keys".  The loop runs over the
elements in source order and stores each key-value element under the name of its key
identifier, overwriting an earlier entry of that name; an element that is not a
key-value pair with an identifier key writes no field. -/
def astCompositeLitFields (cl : CompositeLit) : String → Option KeyValueExpr :=
  cl.Elts.foldl
    (fun result elt =>
      match elt with
      | .KeyValueExpr (.Ident name) value =>
        fun k => if k = name then some ⟨.Ident name, value⟩ else result k
      | _ => result)
    (fun _ => none)

/-- Modelled from the spec: `astCompositeLitField` is called by
`helperSchemaTypeSchemaType` and its source is missing.  The spec: "locate the `Type`
entry" and "For a field written more than once in one literal, the later occurrence
wins": the key-value element of that field name, the last one when there are several,
nil when there is none. -/
def astCompositeLitField (cl : CompositeLit) (fieldName : String) : Option KeyValueExpr :=
  cl.Elts.foldl
    (fun result elt =>
      match elt with
      | .KeyValueExpr (.Ident name) value =>
        if name = fieldName then some ⟨.Ident name, value⟩ else result
      | _ => result)
    none

/-- Modelled from the spec: `astExprValue` is called by `NewHelperSchemaSchemaInfo` and
its source is missing.  The spec: "marker fields decode to declared for any non-empty
expression, foldable or not": the result is nil for the nil expression only.  The
callers compare the result with nil and never read it; the model returns the
expression itself. -/
def astExprValue (e : Expr) : Option Expr :=
  match e with
  | .nil => none
  | e => some e

/-- The struct `HelperSchemaSchemaInfo`. -/
structure HelperSchemaSchemaInfo where
  AstCompositeLit : CompositeLit
  Fields : String → Option KeyValueExpr
  Schema : Schema
  SchemaValueType : String
  TypesInfo : Info

/-- The function `IsHelperSchemaTypeSchema`: the type switch on named, pointer, anything
else. -/
def IsHelperSchemaTypeSchema (H : Helpers) : GoType → Bool
  | .Named t => H.IsHelperSchemaNamedType t TypeNameSchema
  | .Pointer elem => IsHelperSchemaTypeSchema H elem
  | _ => false

/-- The function `IsHelperSchemaValueType`: a selector expression whose type is the named
type `ValueType`. -/
def IsHelperSchemaValueType (H : Helpers) (e : Expr) (info : Info) : Bool :=
  match e with
  | .SelectorExpr x sel =>
    match info.TypeOf (.SelectorExpr x sel) with
    | .Named t => H.IsHelperSchemaNamedType t TypeNameValueType
    | _ => false
  | _ => false

/-- The function `IsHelperSchemaTypeSet`: as `IsHelperSchemaTypeSchema`, for the type
`Set`. -/
def IsHelperSchemaTypeSet (H : Helpers) : GoType → Bool
  | .Named t => H.IsHelperSchemaNamedType t TypeNameSet
  | .Pointer elem => IsHelperSchemaTypeSet H elem
  | _ => false

/-- The function `IsMapStringHelperSchemaTypeSchema`: the literal's type expression is a
map type; a key that is an identifier other than `string` gives false; otherwise the
answer is `IsHelperSchemaTypeSchema` of the type of the value type expression. -/
def IsMapStringHelperSchemaTypeSchema (H : Helpers) (cl : CompositeLit) (info : Info) : Bool :=
  match cl.Type_ with
  | .MapType key value =>
    match key with
    | .Ident name =>
      if name != "string" then false
      else IsHelperSchemaTypeSchema H (info.TypeOf value)
    | _ => IsHelperSchemaTypeSchema H (info.TypeOf value)
  | _ => false

/-- The function `helperSchemaValueTypeString`: the selected name of a selector expression. -/
def helperSchemaValueTypeString (e : Expr) : String :=
  match e with
  | .SelectorExpr _ sel => sel
  | _ => ""

/-- The function `helperSchemaTypeSchemaType`: the string of the `Type` entry of a schema
literal. -/
def helperSchemaTypeSchemaType (H : Helpers) (schema : CompositeLit) (info : Info) : String :=
  match astCompositeLitField schema SchemaFieldType with
  | none => ""
  | some kvExpr =>
    if !IsHelperSchemaValueType H kvExpr.Value info then ""
    else helperSchemaValueTypeString kvExpr.Value

/-- One guarded assignment of `NewHelperSchemaSchemaInfo`:
`if kvExpr := result.Fields[name]; kvExpr != nil && dec(kvExpr.Value) != nil` then
assign from `*dec(kvExpr.Value)`, else leave the schema as it is. -/
def assignField {α : Type} (fields : String → Option KeyValueExpr) (name : String)
    (dec : Expr → Option α) (assign : α → Schema → Schema) (s : Schema) : Schema :=
  match fields name with
  | none => s
  | some kvExpr =>
    match dec kvExpr.Value with
    | none => s
    | some v => assign v s

/-- The function `NewHelperSchemaSchemaInfo`: the record of a schema literal; the twelve
guarded assignments run in the order of the source. -/
def NewHelperSchemaSchemaInfo (H : Helpers) (cl : CompositeLit) (info : Info) :
    HelperSchemaSchemaInfo :=
  let fields := astCompositeLitFields cl
  let s : Schema := {}
  let s := assignField fields SchemaFieldComputed H.ExprBoolValue
    (fun v s => { s with Computed := v }) s
  let s := assignField fields SchemaFieldConflictsWith astExprValue
    (fun _ s => { s with ConflictsWith := some [] }) s
  let s := assignField fields SchemaFieldDefault astExprValue
    (fun _ s => { s with Default := some () }) s
  let s := assignField fields SchemaFieldDescription H.ExprStringValue
    (fun v s => { s with Description := v }) s
  let s := assignField fields SchemaFieldDiffSuppressFunc astExprValue
    (fun _ s => { s with DiffSuppressFunc := some () }) s
  let s := assignField fields SchemaFieldForceNew H.ExprBoolValue
    (fun v s => { s with ForceNew := v }) s
  let s := assignField fields SchemaFieldMaxItems H.ExprIntValue
    (fun v s => { s with MaxItems := v }) s
  let s := assignField fields SchemaFieldMinItems H.ExprIntValue
    (fun v s => { s with MinItems := v }) s
  let s := assignField fields SchemaFieldOptional H.ExprBoolValue
    (fun v s => { s with Optional := v }) s
  let s := assignField fields SchemaFieldRequired H.ExprBoolValue
    (fun v s => { s with Required := v }) s
  let s := assignField fields SchemaFieldSensitive H.ExprBoolValue
    (fun v s => { s with Sensitive := v }) s
  let s := assignField fields SchemaFieldValidateFunc astExprValue
    (fun _ s => { s with ValidateFunc := some () }) s
  { AstCompositeLit := cl
    Fields := fields
    Schema := s
    SchemaValueType := helperSchemaTypeSchemaType H cl info
    TypesInfo := info }

/-- The method `DeclaresField`: the field name has an entry in `Fields`. -/
def HelperSchemaSchemaInfo.DeclaresField (info : HelperSchemaSchemaInfo)
    (fieldName : String) : Bool :=
  (info.Fields fieldName).isSome

/-- The method `DeclaresBoolFieldWithZeroValue`: the field is present and decodes to
false. -/
def HelperSchemaSchemaInfo.DeclaresBoolFieldWithZeroValue (H : Helpers)
    (info : HelperSchemaSchemaInfo) (fieldName : String) : Bool :=
  match info.Fields fieldName with
  | none => false
  | some kvExpr =>
    match H.ExprBoolValue kvExpr.Value with
    | none => false
    | some value => !value

/-- The method `IsType`: the value type equals the given name. -/
def HelperSchemaSchemaInfo.IsType (info : HelperSchemaSchemaInfo) (valueType : String) : Bool :=
  info.SchemaValueType == valueType

/-- The method `IsOneOfTypes`: the loop returns true at the first equal name. -/
def HelperSchemaSchemaInfo.IsOneOfTypes (info : HelperSchemaSchemaInfo) :
    List String → Bool
  | [] => false
  | valueType :: rest =>
    if info.SchemaValueType == valueType then true else info.IsOneOfTypes rest

/-- The function `GetSchemaMapAttributeNames`: the keys of the key-value elements, in
order. -/
def GetSchemaMapAttributeNames (cl : CompositeLit) : List Expr :=
  cl.Elts.foldl
    (fun result elt =>
      match elt with
      | .KeyValueExpr key _ => result ++ [key]
      | _ => result)
    []

/-- The function `GetSchemaMapSchemas`: the composite literals that are values of key-value
elements, in order. -/
def GetSchemaMapSchemas (cl : CompositeLit) : List CompositeLit :=
  cl.Elts.foldl
    (fun result elt =>
      match elt with
      | .KeyValueExpr _ (.CompositeLit type elts) => result ++ [⟨type, elts⟩]
      | _ => result)
    []

/-- Spec side: the value expression with which field `f` is written in the elements of
a literal: that of the last key-value element whose key is the identifier `f`; none when
no element writes `f`. -/
def writtenValue (f : String) : List Expr → Option Expr
  | [] => none
  | elt :: rest =>
    match writtenValue f rest with
    | some v => some v
    | none =>
      match elt with
      | .KeyValueExpr (.Ident name) value => if name = f then some value else none
      | _ => none

/-- The literal as an expression node. -/
def CompositeLitExpr (cl : CompositeLit) : Expr := .CompositeLit cl.Type_ cl.Elts

/-- Spec side: the expression's static type is the value-type enumeration type, the
named type `ValueType` of `helper/schema`. -/
def hasValueTypeStaticType (H : Helpers) (info : Info) (e : Expr) : Bool :=
  match info.TypeOf e with
  | .Named t => H.IsHelperSchemaNamedType t TypeNameValueType
  | _ => false

/-- Spec side: the name of the member that an expression refers to: the selected name
of a qualified reference, the name of an unqualified one. -/
def referencedMemberName (e : Expr) : String :=
  match e with
  | .SelectorExpr _ sel => sel
  | .Ident name => name
  | _ => ""

/-- Spec side: the seven value-type names. -/
def valueTypeNames : List String :=
  [SchemaValueTypeBool, SchemaValueTypeFloat, SchemaValueTypeInt, SchemaValueTypeList,
   SchemaValueTypeMap, SchemaValueTypeSet, SchemaValueTypeString]

/-- Spec side: the pointer type with `n` levels of indirection over `t`. -/
def pointerTo : Nat → GoType → GoType
  | 0, t => t
  | n + 1, t => .Pointer (pointerTo n t)

/-- Spec side: the type is `map[string]*Schema`: a map whose key type is string and
whose value type is pointer to the `helper/schema` Schema struct. -/
def isMapStringPointerSchema (H : Helpers) (t : GoType) : Bool :=
  match t with
  | .Map (.Basic "string") (.Pointer (.Named obj)) => H.IsHelperSchemaNamedType obj TypeNameSchema
  | _ => false

/-! ## Concrete helpers and inputs

An instance of the absent helpers and a few literals with their type table, at which
the functions are evaluated. -/

/-- The import path of the SDK package `helper/schema` that the file imports. -/
def helperSchemaPath : String := "github.com/hashicorp/terraform-plugin-sdk/helper/schema"

/-- The import path of `helper/schema` in version 2 of the SDK, which the test data
imports. -/
def helperSchemaPathV2 : String := "github.com/hashicorp/terraform-plugin-sdk/v2/helper/schema"

/-- Modelled from the spec: `IsHelperSchemaNamedType` has no source at hand.  The spec:
"Matching uses resolved type identity (defining-module path + type name), never
syntactic spelling": the type's name is the given one and its package is `helper/schema`
of the SDK, in either version. -/
def sdkIsHelperSchemaNamedType (t : TypeName) (typeName : String) : Bool :=
  t.Name == typeName && (t.Pkg == some helperSchemaPath || t.Pkg == some helperSchemaPathV2)

/-- Decimal digits to a number; none when a character is not a digit. -/
def decimalValue (cs : List Char) : Option Int :=
  cs.foldl
    (fun acc c =>
      match acc with
      | none => none
      | some n => if c.isDigit then some (n * 10 + ((c.toNat - 48 : Nat) : Int)) else none)
    (some 0)

/-- Modelled from the spec: the decoders of `helper/astutils` have no source at hand.
The spec: "boolean/integer/string fields decode to a concrete value only for literal or
constant-foldable expressions".  This instance decodes literals only: the identifiers
`true` and `false`, a decimal integer literal, a double-quoted string literal without
escapes.  It serves to evaluate the functions at concrete inputs; the general theorems
hold for every instance. -/
def sdkHelpers : Helpers where
  ExprBoolValue := fun e =>
    match e with
    | .Ident name =>
      if name = "true" then some true else if name = "false" then some false else none
    | _ => none
  ExprIntValue := fun e =>
    match e with
    | .BasicLit kind value => if kind = "INT" then decimalValue value.data else none
    | _ => none
  ExprStringValue := fun e =>
    match e with
    | .BasicLit kind value =>
      if kind = "STRING" then some (String.mk ((value.data.drop 1).dropLast)) else none
    | _ => none
  IsHelperSchemaNamedType := sdkIsHelperSchemaNamedType

/-- A key-value element `name: value` of a struct literal. -/
def field (name : String) (value : Expr) : Expr := .KeyValueExpr (.Ident name) value

/-- The type of a type expression in a file that imports `helper/schema` from `path`
under the package name `pkg` and declares `type SchemaMap = map[string]*Schema` and
`type Key = string`; nil for anything else. -/
def typeOfTypeExpr (pkg path : String) (e : Expr) : GoType :=
  let schemaType : GoType := .Named ⟨some path, "Schema"⟩
  let mapType : GoType := .Map (.Basic "string") (.Pointer schemaType)
  match e with
  | .SelectorExpr (.Ident x) sel =>
    if x = pkg ∧ sel = "Schema" then schemaType else .nil
  | .StarExpr (.SelectorExpr (.Ident x) sel) =>
    if x = pkg ∧ sel = "Schema" then .Pointer schemaType else .nil
  | .Ident name =>
    if name = "string" ∨ name = "Key" then .Basic "string"
    else if name = "SchemaMap" then mapType
    else .nil
  | .MapType (.Ident k) (.StarExpr (.SelectorExpr (.Ident x) sel)) =>
    if (k = "string" ∨ k = "Key") ∧ x = pkg ∧ sel = "Schema" then mapType else .nil
  | .MapType (.Ident k) (.SelectorExpr (.Ident x) sel) =>
    if (k = "string" ∨ k = "Key") ∧ x = pkg ∧ sel = "Schema" then
      .Map (.Basic "string") schemaType
    else .nil
  | _ => .nil

/-- The type table of such a file: a composite literal has the type of its type
expression, a selector `pkg.TypeBool`, ..., `pkg.TypeString`, `pkg.TypeInvalid` has the
type `ValueType`, the dot-imported name `TypeString` too when `dot` is set, a type
expression its type, and nothing else has a type. -/
def fileInfo (pkg path : String) (dot : Bool) : Info where
  TypeOf := fun e =>
    match e with
    | .CompositeLit ty _ => typeOfTypeExpr pkg path ty
    | .SelectorExpr (.Ident x) sel =>
      if x = pkg ∧ (sel ∈ valueTypeNames ∨ sel = "TypeInvalid") then
        .Named ⟨some path, "ValueType"⟩
      else typeOfTypeExpr pkg path e
    | .Ident name =>
      if dot = true ∧ name = "TypeString" then .Named ⟨some path, "ValueType"⟩
      else typeOfTypeExpr pkg path e
    | e => typeOfTypeExpr pkg path e

/-- The type table of a file that imports version 1 of the SDK under its own name. -/
def sdkInfo : Info := fileInfo "schema" helperSchemaPath false

/-- The type table of the test data `alias_v2.go`: version 2 of the SDK under alias `s`. -/
def aliasInfo : Info := fileInfo "s" helperSchemaPathV2 false

/-- The type table of a file that imports version 2 of the SDK under its own name. -/
def sdkInfoV2 : Info := fileInfo "schema" helperSchemaPathV2 false

/-- The type table of a file that dot-imports version 1 of the SDK. -/
def dotImportInfo : Info := fileInfo "." helperSchemaPath true

/-- The literal `schema.Schema{Computed: true, Default: "test"}`. -/
def litComputedDefault : CompositeLit :=
  ⟨.SelectorExpr (.Ident "schema") "Schema",
    [field "Computed" (.Ident "true"), field "Default" (.BasicLit "STRING" "\"test\"")]⟩

/-- The literal `schema.Schema{Type: schema.TypeList, Optional: false, Required: enabled,
MaxItems: 1, Description: "d", ValidateFunc: validate(), ConflictsWith: []string{"x"},
DiffSuppressFunc: suppress}`. -/
def litMixed : CompositeLit :=
  ⟨.SelectorExpr (.Ident "schema") "Schema",
    [field "Type" (.SelectorExpr (.Ident "schema") "TypeList"),
     field "Optional" (.Ident "false"),
     field "Required" (.Ident "enabled"),
     field "MaxItems" (.BasicLit "INT" "1"),
     field "Description" (.BasicLit "STRING" "\"d\""),
     field "ValidateFunc" (.CallExpr (.Ident "validate") []),
     field "ConflictsWith"
       (.CompositeLit (.ArrayType .nil (.Ident "string")) [.BasicLit "STRING" "\"x\""]),
     field "DiffSuppressFunc" (.Ident "suppress")]⟩

/-- The literal `Schema{Type: TypeString}` of a file that dot-imports the SDK package. -/
def litDotImport : CompositeLit :=
  ⟨.Ident "Schema", [field "Type" (.Ident "TypeString")]⟩

/-- The literal `schema.Schema{Type: schema.TypeInvalid}`. -/
def litTypeInvalid : CompositeLit :=
  ⟨.SelectorExpr (.Ident "schema") "Schema",
    [field "Type" (.SelectorExpr (.Ident "schema") "TypeInvalid")]⟩

/-- The literal `schema.Schema{Type: cfg.Kind}`, whose selector has no type in the
table. -/
def litTypeUnresolved : CompositeLit :=
  ⟨.SelectorExpr (.Ident "schema") "Schema",
    [field "Type" (.SelectorExpr (.Ident "cfg") "Kind")]⟩

/-- The element `"name": {Computed: true, Default: "test"}` of a schema map. -/
def nameEntry : Expr :=
  .KeyValueExpr (.BasicLit "STRING" "\"name\"")
    (.CompositeLit .nil
      [field "Computed" (.Ident "true"), field "Default" (.BasicLit "STRING" "\"test\"")])

/-- The literal `map[string]*pkg.Schema{"name": {Computed: true, Default: "test"}}`. -/
def litSchemaMap (pkg : String) : CompositeLit :=
  ⟨.MapType (.Ident "string") (.StarExpr (.SelectorExpr (.Ident pkg) "Schema")), [nameEntry]⟩

/-- The literal `SchemaMap{"name": {...}}`, written through the alias
`type SchemaMap = map[string]*schema.Schema`. -/
def litAliasMap : CompositeLit := ⟨.Ident "SchemaMap", [nameEntry]⟩

/-- The literal `map[Key]*schema.Schema{"name": {...}}`, its key type written through the
alias `type Key = string`. -/
def litNamedKeyMap : CompositeLit :=
  ⟨.MapType (.Ident "Key") (.StarExpr (.SelectorExpr (.Ident "schema") "Schema")), [nameEntry]⟩

/-- The literal `map[string]schema.Schema{}`, a map of structs, not of pointers. -/
def litStructMap : CompositeLit :=
  ⟨.MapType (.Ident "string") (.SelectorExpr (.Ident "schema") "Schema"), []⟩

/-! ## Schema maps, rules and suppression -/

/-- Spec side: the key of a key-value element, none for any other element. -/
def entryKey (elt : Expr) : Option Expr :=
  match elt with
  | .KeyValueExpr key _ => some key
  | _ => none

/-- Spec side: the schema literal of a key-value element whose value is a composite
literal, none for any other element. -/
def entrySchema (elt : Expr) : Option CompositeLit :=
  match elt with
  | .KeyValueExpr _ (.CompositeLit type elts) => some ⟨type, elts⟩
  | _ => none

/-- Spec side: the name of an attribute with its schema literal, for a key-value element
whose value is a composite literal. -/
def entryPair (elt : Expr) : Option (Expr × CompositeLit) :=
  match elt with
  | .KeyValueExpr key (.CompositeLit type elts) => some (key, ⟨type, elts⟩)
  | _ => none

/-- Spec side: the boolean fields of the schema, each name with its decoded field. -/
def boolFields : List (String × (Schema → Bool)) :=
  [(SchemaFieldComputed, Schema.Computed), (SchemaFieldForceNew, Schema.ForceNew),
   (SchemaFieldOptional, Schema.Optional), (SchemaFieldRequired, Schema.Required),
   (SchemaFieldSensitive, Schema.Sensitive)]

/-- Spec side: the integer fields of the schema, each name with its decoded field. -/
def intFields : List (String × (Schema → Int)) :=
  [(SchemaFieldMaxItems, Schema.MaxItems), (SchemaFieldMinItems, Schema.MinItems)]

/-- Spec side: the marker fields of the schema, each name with the test that the field
is declared (non-nil). -/
def markerFields : List (String × (Schema → Bool)) :=
  [(SchemaFieldDefault, fun s => s.Default.isSome),
   (SchemaFieldValidateFunc, fun s => s.ValidateFunc.isSome),
   (SchemaFieldDiffSuppressFunc, fun s => s.DiffSuppressFunc.isSome),
   (SchemaFieldConflictsWith, fun s => s.ConflictsWith.isSome)]

/-- Modelled from the spec: the predicate of the Computed/Default rule (pass S027, of
which only test data is at hand).  The spec: "flag it if Computed decodes to true and
Default is declared (resolved or unresolved) while none of Optional/Required/ForceNew is
declared". -/
def computedDefaultPredicate (info : HelperSchemaSchemaInfo) : Bool :=
  info.Schema.Computed && info.Schema.Default.isSome
    && !info.DeclaresField SchemaFieldOptional
    && !info.DeclaresField SchemaFieldRequired
    && !info.DeclaresField SchemaFieldForceNew

/-- Modelled from the spec: a diagnostic, "{rule identifier, message, source position}".
The position is given by the node at which the diagnostic is anchored. -/
structure Diagnostic where
  Identifier : String
  Message : String
  Anchor : Expr

/-- Modelled from the spec: a rule, an independent unit with an identifier that consumes
one classified literal and yields zero or more findings, each a message with the node
at which it is anchored, within that literal. -/
structure Rule where
  Identifier : String
  Run : CompositeLit → List (String × Expr)

/-- Modelled from the spec: the diagnostics of one rule on a literal, each carrying the
identifier of the rule. -/
def Rule.diagnostics (r : Rule) (cl : CompositeLit) : List Diagnostic :=
  (r.Run cl).map (fun finding => ⟨r.Identifier, finding.1, finding.2⟩)

/-- Modelled from the spec: rule evaluation on one literal: the diagnostics of every rule,
in the order of the rules. -/
def evaluate (rules : List Rule) (cl : CompositeLit) : List Diagnostic :=
  rules.flatMap (fun r => r.diagnostics cl)

/-- Modelled from the spec: the text of the suppression directive for a rule, "a
directive of the fixed form `lintignore:<rule-identifier>`". -/
def lintignoreDirective (identifier : String) : String := "lintignore:" ++ identifier

/-- Modelled from the spec: a rule identifier is suppressed on a node when one of the
comments attached immediately above the node is the directive for it.  A comment is
given by its text after the comment marker. -/
def isSuppressed (comments : List String) (identifier : String) : Bool :=
  comments.contains (lintignoreDirective identifier)

/-- Modelled from the spec: the suppression filter of a node, "a pre-filter applied per
node": of the diagnostics anchored within the node it drops those whose rule identifier
has a directive among the comments above the node. -/
def suppressionFilter (comments : List String) (diagnostics : List Diagnostic) :
    List Diagnostic :=
  diagnostics.filter (fun d => !isSuppressed comments d.Identifier)

/-- Modelled from the spec: the final diagnostics of a literal with the comments above
it: evaluate, then filter the suppressed. -/
def report (rules : List Rule) (comments : List String) (cl : CompositeLit) :
    List Diagnostic :=
  suppressionFilter comments (evaluate rules cl)

/-- The message of the naming-convention rule, as the test data expects it. -/
def R013Message : String :=
  "resource names should include the provider name and at least one underscore"

/-- The name contains an underscore. -/
def hasUnderscore (name : String) : Bool := name.data.contains '_'

/-- Modelled from the spec: the naming-convention rule (pass R013, of which only test
data is at hand).  The spec: "for every SchemaMapEntry in a map of resource-level
schemas, flag the entry if its attribute-name literal lacks an underscore separator";
a name that does not decode to a string constant is missing data and does not match.
The names are those of `GetSchemaMapAttributeNames`, and a finding is anchored at the
name. -/
def namingRule (H : Helpers) : Rule where
  Identifier := "R013"
  Run := fun cl =>
    (GetSchemaMapAttributeNames cl).filterMap
      (fun key =>
        match H.ExprStringValue key with
        | none => none
        | some name => if hasUnderscore name then none else some (R013Message, key))

/-- The literal `map[string]*schema.Resource{name: {}}` of the test data of R013, for a
quoted name. -/
def litResourceMap (name : String) : CompositeLit :=
  ⟨.MapType (.Ident "string") (.StarExpr (.SelectorExpr (.Ident "schema") "Resource")),
    [.KeyValueExpr (.BasicLit "STRING" name) (.CompositeLit .nil [])]⟩

/-- The literal `s.Schema{Computed: true, Default: "test"}` of the test data of S027. -/
def litAliasComputedDefault : CompositeLit :=
  ⟨.SelectorExpr (.Ident "s") "Schema",
    [field "Computed" (.Ident "true"), field "Default" (.BasicLit "STRING" "\"test\"")]⟩

/-- The literal `schema.Schema{Computed: false, Type: schema.TypeString, Computed: true,
Type: schema.TypeList}`, which writes two fields twice. -/
def litDuplicates : CompositeLit :=
  ⟨.SelectorExpr (.Ident "schema") "Schema",
    [field "Computed" (.Ident "false"),
     field "Type" (.SelectorExpr (.Ident "schema") "TypeString"),
     field "Computed" (.Ident "true"),
     field "Type" (.SelectorExpr (.Ident "schema") "TypeList")]⟩

/-- The literal `map[string]*schema.Schema{"a": first, "b": {Computed: true}, "a":
{Optional: true}}`, whose first value is an identifier and whose name `a` occurs
twice. -/
def litMixedMap : CompositeLit :=
  ⟨.MapType (.Ident "string") (.StarExpr (.SelectorExpr (.Ident "schema") "Schema")),
    [.KeyValueExpr (.BasicLit "STRING" "\"a\"") (.Ident "first"),
     .KeyValueExpr (.BasicLit "STRING" "\"b\"")
       (.CompositeLit .nil [field "Computed" (.Ident "true")]),
     .KeyValueExpr (.BasicLit "STRING" "\"a\"")
       (.CompositeLit .nil [field "Optional" (.Ident "true")])]⟩

/-- The literal `map[string]*schema.Schema{"a": {Computed: true}, "b": second}`, whose
last value is an identifier. -/
def litTrailingMap : CompositeLit :=
  ⟨.MapType (.Ident "string") (.StarExpr (.SelectorExpr (.Ident "schema") "Schema")),
    [.KeyValueExpr (.BasicLit "STRING" "\"a\"")
       (.CompositeLit .nil [field "Computed" (.Ident "true")]),
     .KeyValueExpr (.BasicLit "STRING" "\"b\"") (.Ident "second")]⟩

/-! ## The field record and the written fields -/

theorem writtenValue_nil (f : String) : writtenValue f [] = none := rfl

theorem writtenValue_cons (f : String) (elt : Expr) (rest : List Expr) :
    writtenValue f (elt :: rest) =
      match writtenValue f rest with
      | some v => some v
      | none =>
        match elt with
        | .KeyValueExpr (.Ident name) value => if name = f then some value else none
        | _ => none := rfl

theorem writtenValue_append_singleton (f : String) (elts : List Expr) (elt : Expr) :
    writtenValue f (elts ++ [elt]) =
      match writtenValue f [elt] with
      | some v => some v
      | none => writtenValue f elts := by
  induction elts with
  | nil =>
    rw [List.nil_append]
    cases writtenValue f [elt] <;> rfl
  | cons e es ih =>
    rw [List.cons_append, writtenValue_cons, ih, writtenValue_cons f e es]
    cases writtenValue f [elt] <;> rfl

theorem writtenValue_singleton (f : String) (elt : Expr) :
    writtenValue f [elt] =
      match elt with
      | .KeyValueExpr (.Ident name) value => if name = f then some value else none
      | _ => none := rfl

/-- The field record holds, for every name, the last key-value element that writes it. -/
theorem astCompositeLitFields_eq (cl : CompositeLit) (f : String) :
    astCompositeLitFields cl f =
      (writtenValue f cl.Elts).map (fun v => (⟨.Ident f, v⟩ : KeyValueExpr)) := by
  obtain ⟨ty, elts⟩ := cl
  unfold astCompositeLitFields
  simp only
  induction elts using List.reverseRecOn with
  | nil => rfl
  | append_singleton l a ih =>
    rw [List.foldl_append, writtenValue_append_singleton, writtenValue_singleton]
    simp only [List.foldl_cons, List.foldl_nil]
    split
    · rename_i name value
      by_cases h : name = f
      · subst h
        simp
      · have h2 : ¬ f = name := fun e => h e.symm
        simp only [h, h2, if_false]
        exact ih
    · simp only []
      exact ih

/-- The single-field lookup finds the last key-value element that writes the field. -/
theorem astCompositeLitField_eq (cl : CompositeLit) (f : String) :
    astCompositeLitField cl f =
      (writtenValue f cl.Elts).map (fun v => (⟨.Ident f, v⟩ : KeyValueExpr)) := by
  obtain ⟨ty, elts⟩ := cl
  unfold astCompositeLitField
  simp only
  induction elts using List.reverseRecOn with
  | nil => rfl
  | append_singleton l a ih =>
    rw [List.foldl_append, writtenValue_append_singleton, writtenValue_singleton]
    simp only [List.foldl_cons, List.foldl_nil]
    split
    · rename_i name value
      by_cases h : name = f
      · subst h
        simp
      · simp only [h, if_false]
        exact ih
    · simp only []
      exact ih

/-- No value is written for `f` exactly when no element is a key-value pair keyed by the
identifier `f`. -/
theorem writtenValue_eq_none_iff (f : String) (elts : List Expr) :
    writtenValue f elts = none ↔ ∀ v, Expr.KeyValueExpr (.Ident f) v ∉ elts := by
  induction elts with
  | nil => simp [writtenValue]
  | cons e es ih =>
    rw [writtenValue_cons]
    constructor
    · intro h v hv
      cases hrest : writtenValue f es with
      | some w => rw [hrest] at h; cases h
      | none =>
        rw [hrest] at h
        rcases List.mem_cons.mp hv with he | he
        · subst he
          simp at h
        · exact (ih.mp hrest) v he
    · intro h
      have hrest : writtenValue f es = none :=
        ih.mpr (fun v hv => h v (List.mem_cons_of_mem _ hv))
      rw [hrest]
      simp only
      split
      · rename_i name value
        by_cases hn : name = f
        · subst hn
          exact absurd (List.mem_cons_self _ _) (h value)
        · simp [hn]
      · rfl

/-- The value written for `f` is that of a key-value element keyed by `f` after which
no other element writes `f`. -/
theorem writtenValue_of_last (f : String) (pre post : List Expr) (v : Expr)
    (hpost : ∀ w, Expr.KeyValueExpr (.Ident f) w ∉ post) :
    writtenValue f (pre ++ Expr.KeyValueExpr (.Ident f) v :: post) = some v := by
  have hnone : writtenValue f post = none := (writtenValue_eq_none_iff f post).mpr hpost
  induction pre with
  | nil =>
    rw [List.nil_append, writtenValue_cons, hnone]
    simp
  | cons e es ih =>
    rw [List.cons_append, writtenValue_cons, ih]

/-- A projection of the schema that an assignment leaves alone is left alone by the
guarded assignment. -/
theorem assignField_frame {α β : Type} (p : Schema → β)
    (fields : String → Option KeyValueExpr) (name : String) (dec : Expr → Option α)
    (assign : α → Schema → Schema) (s : Schema)
    (h : ∀ v s, p (assign v s) = p s) :
    p (assignField fields name dec assign s) = p s := by
  unfold assignField
  split
  · rfl
  · split
    · rfl
    · exact h _ _

/-- The guarded assignment over the field record of a literal, in terms of the value
written for the field. -/
theorem assignField_eq {α : Type} (cl : CompositeLit) (name : String)
    (dec : Expr → Option α) (assign : α → Schema → Schema) (s : Schema) :
    assignField (astCompositeLitFields cl) name dec assign s =
      match (writtenValue name cl.Elts).bind dec with
      | some v => assign v s
      | none => s := by
  unfold assignField
  rw [astCompositeLitFields_eq]
  cases writtenValue name cl.Elts with
  | none => rfl
  | some w =>
    simp only [Option.map_some', Option.some_bind]
    cases dec w <;> rfl

/-! ## Decoded fields of the schema record -/

/-- Claim C1. For every schema literal and type table, each scalar field of the Schema
built by `NewHelperSchemaSchemaInfo` (the booleans Computed, ForceNew, Optional,
Required, Sensitive, the integers MaxItems, MinItems, the string Description) is the
constant decoded from the value written for that field when the field is written in the
literal and its value decodes, and the zero value (false, 0, empty string) when the
field is absent or its value does not decode. -/
theorem newInfo_scalar_fields (H : Helpers) (cl : CompositeLit) (info : Info) :
    (NewHelperSchemaSchemaInfo H cl info).Schema.Computed
        = ((writtenValue "Computed" cl.Elts).bind H.ExprBoolValue).getD false
    ∧ (NewHelperSchemaSchemaInfo H cl info).Schema.ForceNew
        = ((writtenValue "ForceNew" cl.Elts).bind H.ExprBoolValue).getD false
    ∧ (NewHelperSchemaSchemaInfo H cl info).Schema.Optional
        = ((writtenValue "Optional" cl.Elts).bind H.ExprBoolValue).getD false
    ∧ (NewHelperSchemaSchemaInfo H cl info).Schema.Required
        = ((writtenValue "Required" cl.Elts).bind H.ExprBoolValue).getD false
    ∧ (NewHelperSchemaSchemaInfo H cl info).Schema.Sensitive
        = ((writtenValue "Sensitive" cl.Elts).bind H.ExprBoolValue).getD false
    ∧ (NewHelperSchemaSchemaInfo H cl info).Schema.MaxItems
        = ((writtenValue "MaxItems" cl.Elts).bind H.ExprIntValue).getD 0
    ∧ (NewHelperSchemaSchemaInfo H cl info).Schema.MinItems
        = ((writtenValue "MinItems" cl.Elts).bind H.ExprIntValue).getD 0
    ∧ (NewHelperSchemaSchemaInfo H cl info).Schema.Description
        = ((writtenValue "Description" cl.Elts).bind H.ExprStringValue).getD "" := by
  simp only [NewHelperSchemaSchemaInfo]
  refine ⟨?_, ?_, ?_, ?_, ?_, ?_, ?_, ?_⟩
  · repeat (refine Eq.trans (assignField_frame Schema.Computed _ _ _ _ _ (by intro v s; rfl)) ?_)
    rw [assignField_eq]
    show _ = ((writtenValue SchemaFieldComputed cl.Elts).bind H.ExprBoolValue).getD false
    generalize (writtenValue SchemaFieldComputed cl.Elts).bind H.ExprBoolValue = o
    cases o with
    | some v => rfl
    | none => rfl
  · repeat (refine Eq.trans (assignField_frame Schema.ForceNew _ _ _ _ _ (by intro v s; rfl)) ?_)
    rw [assignField_eq]
    show _ = ((writtenValue SchemaFieldForceNew cl.Elts).bind H.ExprBoolValue).getD false
    generalize (writtenValue SchemaFieldForceNew cl.Elts).bind H.ExprBoolValue = o
    cases o with
    | some v => rfl
    | none =>
      show Schema.ForceNew _ = false
      repeat (refine Eq.trans (assignField_frame Schema.ForceNew _ _ _ _ _ (by intro v s; rfl)) ?_)
      rfl
  · repeat (refine Eq.trans (assignField_frame Schema.Optional _ _ _ _ _ (by intro v s; rfl)) ?_)
    rw [assignField_eq]
    show _ = ((writtenValue SchemaFieldOptional cl.Elts).bind H.ExprBoolValue).getD false
    generalize (writtenValue SchemaFieldOptional cl.Elts).bind H.ExprBoolValue = o
    cases o with
    | some v => rfl
    | none =>
      show Schema.Optional _ = false
      repeat (refine Eq.trans (assignField_frame Schema.Optional _ _ _ _ _ (by intro v s; rfl)) ?_)
      rfl
  · repeat (refine Eq.trans (assignField_frame Schema.Required _ _ _ _ _ (by intro v s; rfl)) ?_)
    rw [assignField_eq]
    show _ = ((writtenValue SchemaFieldRequired cl.Elts).bind H.ExprBoolValue).getD false
    generalize (writtenValue SchemaFieldRequired cl.Elts).bind H.ExprBoolValue = o
    cases o with
    | some v => rfl
    | none =>
      show Schema.Required _ = false
      repeat (refine Eq.trans (assignField_frame Schema.Required _ _ _ _ _ (by intro v s; rfl)) ?_)
      rfl
  · repeat (refine Eq.trans (assignField_frame Schema.Sensitive _ _ _ _ _ (by intro v s; rfl)) ?_)
    rw [assignField_eq]
    show _ = ((writtenValue SchemaFieldSensitive cl.Elts).bind H.ExprBoolValue).getD false
    generalize (writtenValue SchemaFieldSensitive cl.Elts).bind H.ExprBoolValue = o
    cases o with
    | some v => rfl
    | none =>
      show Schema.Sensitive _ = false
      repeat (refine Eq.trans (assignField_frame Schema.Sensitive _ _ _ _ _ (by intro v s; rfl)) ?_)
      rfl
  · repeat (refine Eq.trans (assignField_frame Schema.MaxItems _ _ _ _ _ (by intro v s; rfl)) ?_)
    rw [assignField_eq]
    show _ = ((writtenValue SchemaFieldMaxItems cl.Elts).bind H.ExprIntValue).getD 0
    generalize (writtenValue SchemaFieldMaxItems cl.Elts).bind H.ExprIntValue = o
    cases o with
    | some v => rfl
    | none =>
      show Schema.MaxItems _ = 0
      repeat (refine Eq.trans (assignField_frame Schema.MaxItems _ _ _ _ _ (by intro v s; rfl)) ?_)
      rfl
  · repeat (refine Eq.trans (assignField_frame Schema.MinItems _ _ _ _ _ (by intro v s; rfl)) ?_)
    rw [assignField_eq]
    show _ = ((writtenValue SchemaFieldMinItems cl.Elts).bind H.ExprIntValue).getD 0
    generalize (writtenValue SchemaFieldMinItems cl.Elts).bind H.ExprIntValue = o
    cases o with
    | some v => rfl
    | none =>
      show Schema.MinItems _ = 0
      repeat (refine Eq.trans (assignField_frame Schema.MinItems _ _ _ _ _ (by intro v s; rfl)) ?_)
      rfl
  · repeat (refine Eq.trans (assignField_frame Schema.Description _ _ _ _ _ (by intro v s; rfl)) ?_)
    rw [assignField_eq]
    show _ = ((writtenValue SchemaFieldDescription cl.Elts).bind H.ExprStringValue).getD ""
    generalize (writtenValue SchemaFieldDescription cl.Elts).bind H.ExprStringValue = o
    cases o with
    | some v => rfl
    | none =>
      show Schema.Description _ = ""
      repeat (refine Eq.trans (assignField_frame Schema.Description _ _ _ _ _ (by intro v s; rfl)) ?_)
      rfl

/-- Witness of C1: in `litMixed` Optional is written as `false`, Required with an
identifier that does not decode, Computed and MinItems are absent, MaxItems is `1` and
Description is `"d"`; in `litComputedDefault` Computed is written as `true`. -/
theorem newInfo_scalar_fields_witness :
    (NewHelperSchemaSchemaInfo sdkHelpers litMixed sdkInfo).Schema.Computed = false
    ∧ (NewHelperSchemaSchemaInfo sdkHelpers litMixed sdkInfo).Schema.Optional = false
    ∧ (NewHelperSchemaSchemaInfo sdkHelpers litMixed sdkInfo).Schema.Required = false
    ∧ (NewHelperSchemaSchemaInfo sdkHelpers litMixed sdkInfo).Schema.MaxItems = 1
    ∧ (NewHelperSchemaSchemaInfo sdkHelpers litMixed sdkInfo).Schema.MinItems = 0
    ∧ (NewHelperSchemaSchemaInfo sdkHelpers litMixed sdkInfo).Schema.Description = "d"
    ∧ (NewHelperSchemaSchemaInfo sdkHelpers litComputedDefault sdkInfo).Schema.Computed = true :=
  ⟨(newInfo_scalar_fields sdkHelpers litMixed sdkInfo).1.trans (by decide),
    (newInfo_scalar_fields sdkHelpers litMixed sdkInfo).2.2.1.trans (by decide),
    (newInfo_scalar_fields sdkHelpers litMixed sdkInfo).2.2.2.1.trans (by decide),
    (newInfo_scalar_fields sdkHelpers litMixed sdkInfo).2.2.2.2.2.1.trans (by decide),
    (newInfo_scalar_fields sdkHelpers litMixed sdkInfo).2.2.2.2.2.2.1.trans (by decide),
    (newInfo_scalar_fields sdkHelpers litMixed sdkInfo).2.2.2.2.2.2.2.trans (by decide),
    (newInfo_scalar_fields sdkHelpers litComputedDefault sdkInfo).1.trans (by decide)⟩

/-- The nil expression is the only one without a value. -/
theorem astExprValue_eq_none_iff (e : Expr) : astExprValue e = none ↔ e = Expr.nil := by
  cases e <;> simp [astExprValue]

/-- A marker is set exactly when the written value is not the nil expression. -/
theorem marker_ne_none_iff {β : Type} (o : Option Expr) (b : β) :
    ((o.bind astExprValue).map (fun _ => b)) ≠ none ↔ ∃ v, o = some v ∧ v ≠ Expr.nil := by
  cases o with
  | none => simp
  | some w =>
    simp only [Option.some_bind, Option.some.injEq, exists_eq_left']
    cases hw : astExprValue w with
    | none =>
      have := (astExprValue_eq_none_iff w).mp hw
      simp [this]
    | some x =>
      have hne : w ≠ Expr.nil := by
        intro h
        rw [(astExprValue_eq_none_iff w).mpr h] at hw
        cases hw
      simp [hne]

/-- The four marker fields of the record, as functions of the written values. -/
theorem newInfo_marker_fields_eq (H : Helpers) (cl : CompositeLit) (info : Info) :
    (NewHelperSchemaSchemaInfo H cl info).Schema.ConflictsWith
        = ((writtenValue "ConflictsWith" cl.Elts).bind astExprValue).map (fun _ => [])
    ∧ (NewHelperSchemaSchemaInfo H cl info).Schema.Default
        = ((writtenValue "Default" cl.Elts).bind astExprValue).map (fun _ => ())
    ∧ (NewHelperSchemaSchemaInfo H cl info).Schema.DiffSuppressFunc
        = ((writtenValue "DiffSuppressFunc" cl.Elts).bind astExprValue).map (fun _ => ())
    ∧ (NewHelperSchemaSchemaInfo H cl info).Schema.ValidateFunc
        = ((writtenValue "ValidateFunc" cl.Elts).bind astExprValue).map (fun _ => ()) := by
  simp only [NewHelperSchemaSchemaInfo]
  refine ⟨?_, ?_, ?_, ?_⟩
  · repeat (refine Eq.trans (assignField_frame Schema.ConflictsWith _ _ _ _ _ (by intro v s; rfl)) ?_)
    rw [assignField_eq]
    show _ = ((writtenValue SchemaFieldConflictsWith cl.Elts).bind astExprValue).map (fun _ => [])
    generalize (writtenValue SchemaFieldConflictsWith cl.Elts).bind astExprValue = o
    cases o with
    | some v => rfl
    | none =>
      show Schema.ConflictsWith _ = none
      repeat (refine Eq.trans (assignField_frame Schema.ConflictsWith _ _ _ _ _ (by intro v s; rfl)) ?_)
      rfl
  · repeat (refine Eq.trans (assignField_frame Schema.Default _ _ _ _ _ (by intro v s; rfl)) ?_)
    rw [assignField_eq]
    show _ = ((writtenValue SchemaFieldDefault cl.Elts).bind astExprValue).map (fun _ => ())
    generalize (writtenValue SchemaFieldDefault cl.Elts).bind astExprValue = o
    cases o with
    | some v => rfl
    | none =>
      show Schema.Default _ = none
      repeat (refine Eq.trans (assignField_frame Schema.Default _ _ _ _ _ (by intro v s; rfl)) ?_)
      rfl
  · repeat (refine Eq.trans (assignField_frame Schema.DiffSuppressFunc _ _ _ _ _ (by intro v s; rfl)) ?_)
    rw [assignField_eq]
    show _ = ((writtenValue SchemaFieldDiffSuppressFunc cl.Elts).bind astExprValue).map (fun _ => ())
    generalize (writtenValue SchemaFieldDiffSuppressFunc cl.Elts).bind astExprValue = o
    cases o with
    | some v => rfl
    | none =>
      show Schema.DiffSuppressFunc _ = none
      repeat (refine Eq.trans (assignField_frame Schema.DiffSuppressFunc _ _ _ _ _ (by intro v s; rfl)) ?_)
      rfl
  · rw [assignField_eq]
    show _ = ((writtenValue SchemaFieldValidateFunc cl.Elts).bind astExprValue).map (fun _ => ())
    generalize (writtenValue SchemaFieldValidateFunc cl.Elts).bind astExprValue = o
    cases o with
    | some v => rfl
    | none =>
      show Schema.ValidateFunc _ = none
      repeat (refine Eq.trans (assignField_frame Schema.ValidateFunc _ _ _ _ _ (by intro v s; rfl)) ?_)
      rfl

/-- Claim C2. For every schema literal, each marker field (Default, ValidateFunc,
DiffSuppressFunc, ConflictsWith) of the Schema built by `NewHelperSchemaSchemaInfo` is
non-nil exactly when the field is written in the literal with a value expression that
is not the nil expression, whatever kind of expression it is; a field that is not
written stays nil. -/
theorem newInfo_marker_fields (H : Helpers) (cl : CompositeLit) (info : Info) :
    ((NewHelperSchemaSchemaInfo H cl info).Schema.Default ≠ none
        ↔ ∃ v, writtenValue "Default" cl.Elts = some v ∧ v ≠ Expr.nil)
    ∧ ((NewHelperSchemaSchemaInfo H cl info).Schema.ValidateFunc ≠ none
        ↔ ∃ v, writtenValue "ValidateFunc" cl.Elts = some v ∧ v ≠ Expr.nil)
    ∧ ((NewHelperSchemaSchemaInfo H cl info).Schema.DiffSuppressFunc ≠ none
        ↔ ∃ v, writtenValue "DiffSuppressFunc" cl.Elts = some v ∧ v ≠ Expr.nil)
    ∧ ((NewHelperSchemaSchemaInfo H cl info).Schema.ConflictsWith ≠ none
        ↔ ∃ v, writtenValue "ConflictsWith" cl.Elts = some v ∧ v ≠ Expr.nil) := by
  obtain ⟨hc, hd, hs, hv⟩ := newInfo_marker_fields_eq H cl info
  rw [hc, hd, hs, hv]
  exact ⟨marker_ne_none_iff _ _, marker_ne_none_iff _ _, marker_ne_none_iff _ _,
    marker_ne_none_iff _ _⟩

/-- Witness of C2: `litComputedDefault` writes Default with a string literal; `litMixed`
writes ValidateFunc with a function call, DiffSuppressFunc with an identifier and
ConflictsWith with a composite literal, and does not write Default. -/
theorem newInfo_marker_fields_witness :
    (NewHelperSchemaSchemaInfo sdkHelpers litComputedDefault sdkInfo).Schema.Default ≠ none
    ∧ (NewHelperSchemaSchemaInfo sdkHelpers litMixed sdkInfo).Schema.ValidateFunc ≠ none
    ∧ (NewHelperSchemaSchemaInfo sdkHelpers litMixed sdkInfo).Schema.DiffSuppressFunc ≠ none
    ∧ (NewHelperSchemaSchemaInfo sdkHelpers litMixed sdkInfo).Schema.ConflictsWith ≠ none
    ∧ ¬ (NewHelperSchemaSchemaInfo sdkHelpers litMixed sdkInfo).Schema.Default ≠ none :=
  ⟨(newInfo_marker_fields sdkHelpers litComputedDefault sdkInfo).1.mpr
      ⟨_, rfl, fun h => Expr.noConfusion h⟩,
    (newInfo_marker_fields sdkHelpers litMixed sdkInfo).2.1.mpr
      ⟨_, rfl, fun h => Expr.noConfusion h⟩,
    (newInfo_marker_fields sdkHelpers litMixed sdkInfo).2.2.1.mpr
      ⟨_, rfl, fun h => Expr.noConfusion h⟩,
    (newInfo_marker_fields sdkHelpers litMixed sdkInfo).2.2.2.mpr
      ⟨_, rfl, fun h => Expr.noConfusion h⟩,
    fun h => by
      obtain ⟨v, hv, _⟩ := (newInfo_marker_fields sdkHelpers litMixed sdkInfo).1.mp h
      cases hv⟩

/-! ## Declaration queries -/

/-- Claim C3. For every HelperSchemaSchemaInfo and every field name,
`DeclaresBoolFieldWithZeroValue` is false when the field has no entry (it is omitted
from the literal), true when the field's entry has a value that decodes to false, and
false when that value decodes to true; for the record of a literal, the entry is the
one written in the literal. -/
theorem declaresBoolFieldWithZeroValue_cases (H : Helpers) (info : HelperSchemaSchemaInfo)
    (fieldName : String) :
    (info.Fields fieldName = none →
      info.DeclaresBoolFieldWithZeroValue H fieldName = false)
    ∧ (∀ kvExpr, info.Fields fieldName = some kvExpr →
        H.ExprBoolValue kvExpr.Value = some false →
        info.DeclaresBoolFieldWithZeroValue H fieldName = true)
    ∧ (∀ kvExpr, info.Fields fieldName = some kvExpr →
        H.ExprBoolValue kvExpr.Value = some true →
        info.DeclaresBoolFieldWithZeroValue H fieldName = false)
    ∧ (∀ cl ti, writtenValue fieldName cl.Elts = none →
        (NewHelperSchemaSchemaInfo H cl ti).DeclaresBoolFieldWithZeroValue H fieldName = false)
    ∧ (∀ cl ti v, writtenValue fieldName cl.Elts = some v →
        H.ExprBoolValue v = some false →
        (NewHelperSchemaSchemaInfo H cl ti).DeclaresBoolFieldWithZeroValue H fieldName = true)
    ∧ (∀ cl ti v, writtenValue fieldName cl.Elts = some v →
        H.ExprBoolValue v = some true →
        (NewHelperSchemaSchemaInfo H cl ti).DeclaresBoolFieldWithZeroValue H fieldName
          = false) := by
  refine ⟨?_, ?_, ?_, ?_, ?_, ?_⟩
  · intro h
    simp [HelperSchemaSchemaInfo.DeclaresBoolFieldWithZeroValue, h]
  · intro kvExpr h hv
    simp [HelperSchemaSchemaInfo.DeclaresBoolFieldWithZeroValue, h, hv]
  · intro kvExpr h hv
    simp [HelperSchemaSchemaInfo.DeclaresBoolFieldWithZeroValue, h, hv]
  · intro cl ti h
    simp [HelperSchemaSchemaInfo.DeclaresBoolFieldWithZeroValue, NewHelperSchemaSchemaInfo,
      astCompositeLitFields_eq, h]
  · intro cl ti v h hv
    simp [HelperSchemaSchemaInfo.DeclaresBoolFieldWithZeroValue, NewHelperSchemaSchemaInfo,
      astCompositeLitFields_eq, h, hv]
  · intro cl ti v h hv
    simp [HelperSchemaSchemaInfo.DeclaresBoolFieldWithZeroValue, NewHelperSchemaSchemaInfo,
      astCompositeLitFields_eq, h, hv]

/-- Witness of C3: in `litMixed` the field Optional is written as `false`, Computed is
omitted; in `litComputedDefault` Computed is written as `true`. -/
theorem declaresBoolFieldWithZeroValue_cases_witness :
    (writtenValue "Optional" litMixed.Elts = some (.Ident "false")
      ∧ sdkHelpers.ExprBoolValue (.Ident "false") = some false
      ∧ (NewHelperSchemaSchemaInfo sdkHelpers litMixed sdkInfo).DeclaresBoolFieldWithZeroValue
          sdkHelpers "Optional" = true)
    ∧ (writtenValue "Computed" litMixed.Elts = none
      ∧ (NewHelperSchemaSchemaInfo sdkHelpers litMixed sdkInfo).DeclaresBoolFieldWithZeroValue
          sdkHelpers "Computed" = false)
    ∧ (writtenValue "Computed" litComputedDefault.Elts = some (.Ident "true")
      ∧ sdkHelpers.ExprBoolValue (.Ident "true") = some true
      ∧ (NewHelperSchemaSchemaInfo sdkHelpers litComputedDefault
          sdkInfo).DeclaresBoolFieldWithZeroValue sdkHelpers "Computed" = false) :=
  ⟨⟨rfl, rfl,
      (declaresBoolFieldWithZeroValue_cases sdkHelpers
        (NewHelperSchemaSchemaInfo sdkHelpers litMixed sdkInfo) "Optional").2.2.2.2.1
        litMixed sdkInfo (.Ident "false") rfl rfl⟩,
    ⟨rfl,
      (declaresBoolFieldWithZeroValue_cases sdkHelpers
        (NewHelperSchemaSchemaInfo sdkHelpers litMixed sdkInfo) "Computed").2.2.2.1
        litMixed sdkInfo rfl⟩,
    ⟨rfl, rfl,
      (declaresBoolFieldWithZeroValue_cases sdkHelpers
        (NewHelperSchemaSchemaInfo sdkHelpers litComputedDefault sdkInfo) "Computed").2.2.2.2.2
        litComputedDefault sdkInfo (.Ident "true") rfl rfl⟩⟩

/-- Claim C4. The three states of a boolean field of a schema literal are told apart by
the pair (`DeclaresField`, `DeclaresBoolFieldWithZeroValue`) of its record: a field that
is never written gives (false, false); a field written with a value that is not a
decodable boolean constant gives (true, false); a field written with a value that
decodes to false gives (true, true).  Both queries are total functions. -/
theorem bool_field_three_states (H : Helpers) (cl : CompositeLit) (ti : Info)
    (fieldName : String) :
    (writtenValue fieldName cl.Elts = none →
      (NewHelperSchemaSchemaInfo H cl ti).DeclaresField fieldName = false
      ∧ (NewHelperSchemaSchemaInfo H cl ti).DeclaresBoolFieldWithZeroValue H fieldName = false)
    ∧ (∀ v, writtenValue fieldName cl.Elts = some v → H.ExprBoolValue v = none →
      (NewHelperSchemaSchemaInfo H cl ti).DeclaresField fieldName = true
      ∧ (NewHelperSchemaSchemaInfo H cl ti).DeclaresBoolFieldWithZeroValue H fieldName = false)
    ∧ (∀ v, writtenValue fieldName cl.Elts = some v → H.ExprBoolValue v = some false →
      (NewHelperSchemaSchemaInfo H cl ti).DeclaresField fieldName = true
      ∧ (NewHelperSchemaSchemaInfo H cl ti).DeclaresBoolFieldWithZeroValue H fieldName
          = true) := by
  refine ⟨?_, ?_, ?_⟩
  · intro h
    simp [HelperSchemaSchemaInfo.DeclaresField,
      HelperSchemaSchemaInfo.DeclaresBoolFieldWithZeroValue, NewHelperSchemaSchemaInfo,
      astCompositeLitFields_eq, h]
  · intro v h hv
    simp [HelperSchemaSchemaInfo.DeclaresField,
      HelperSchemaSchemaInfo.DeclaresBoolFieldWithZeroValue, NewHelperSchemaSchemaInfo,
      astCompositeLitFields_eq, h, hv]
  · intro v h hv
    simp [HelperSchemaSchemaInfo.DeclaresField,
      HelperSchemaSchemaInfo.DeclaresBoolFieldWithZeroValue, NewHelperSchemaSchemaInfo,
      astCompositeLitFields_eq, h, hv]

/-- Witness of C4: in `litMixed` the field Computed is never written, Required is
written with the identifier `enabled`, which is no boolean constant, and Optional is
written as `false`. -/
theorem bool_field_three_states_witness :
    (writtenValue "Computed" litMixed.Elts = none
      ∧ (NewHelperSchemaSchemaInfo sdkHelpers litMixed sdkInfo).DeclaresField "Computed" = false
      ∧ (NewHelperSchemaSchemaInfo sdkHelpers litMixed sdkInfo).DeclaresBoolFieldWithZeroValue
          sdkHelpers "Computed" = false)
    ∧ (writtenValue "Required" litMixed.Elts = some (.Ident "enabled")
      ∧ sdkHelpers.ExprBoolValue (.Ident "enabled") = none
      ∧ (NewHelperSchemaSchemaInfo sdkHelpers litMixed sdkInfo).DeclaresField "Required" = true
      ∧ (NewHelperSchemaSchemaInfo sdkHelpers litMixed sdkInfo).DeclaresBoolFieldWithZeroValue
          sdkHelpers "Required" = false)
    ∧ (writtenValue "Optional" litMixed.Elts = some (.Ident "false")
      ∧ sdkHelpers.ExprBoolValue (.Ident "false") = some false
      ∧ (NewHelperSchemaSchemaInfo sdkHelpers litMixed sdkInfo).DeclaresField "Optional" = true
      ∧ (NewHelperSchemaSchemaInfo sdkHelpers litMixed sdkInfo).DeclaresBoolFieldWithZeroValue
          sdkHelpers "Optional" = true) :=
  ⟨⟨rfl, (bool_field_three_states sdkHelpers litMixed sdkInfo "Computed").1 rfl⟩,
    ⟨rfl, rfl,
      (bool_field_three_states sdkHelpers litMixed sdkInfo "Required").2.1 (.Ident "enabled")
        rfl rfl⟩,
    ⟨rfl, rfl,
      (bool_field_three_states sdkHelpers litMixed sdkInfo "Optional").2.2 (.Ident "false")
        rfl rfl⟩⟩

/-! ## The declared value type -/

/-- The string of the `Type` entry, by the value written for `Type`. -/
theorem helperSchemaTypeSchemaType_eq (H : Helpers) (cl : CompositeLit) (info : Info) :
    helperSchemaTypeSchemaType H cl info =
      match writtenValue "Type" cl.Elts with
      | none => ""
      | some v =>
        if IsHelperSchemaValueType H v info = true then helperSchemaValueTypeString v else "" := by
  unfold helperSchemaTypeSchemaType
  rw [show SchemaFieldType = "Type" from rfl, astCompositeLitField_eq]
  cases writtenValue "Type" cl.Elts with
  | none => rfl
  | some v =>
    simp only [Option.map_some']
    cases IsHelperSchemaValueType H v info <;> rfl

/-- On a selector expression, `IsHelperSchemaValueType` is the static-type test. -/
theorem IsHelperSchemaValueType_selector (H : Helpers) (info : Info) (x : Expr) (sel : String) :
    IsHelperSchemaValueType H (.SelectorExpr x sel) info
      = hasValueTypeStaticType H info (.SelectorExpr x sel) := rfl

/-- On anything but a selector expression, `IsHelperSchemaValueType` is false. -/
theorem IsHelperSchemaValueType_not_selector (H : Helpers) (info : Info) (e : Expr)
    (h : ∀ x sel, e ≠ .SelectorExpr x sel) : IsHelperSchemaValueType H e info = false := by
  cases e <;> first | rfl | exact absurd rfl (h _ _)

/-- The function `IsHelperSchemaValueType` holds exactly for the selector expressions
whose static type is `ValueType`. -/
theorem IsHelperSchemaValueType_iff (H : Helpers) (info : Info) (e : Expr) :
    IsHelperSchemaValueType H e info = true ↔
      ∃ x sel, e = .SelectorExpr x sel
        ∧ hasValueTypeStaticType H info (.SelectorExpr x sel) = true := by
  constructor
  · intro h
    by_cases hsel : ∃ x sel, e = .SelectorExpr x sel
    · obtain ⟨x, sel, rfl⟩ := hsel
      exact ⟨x, sel, rfl, h⟩
    · have hns : ∀ x sel, e ≠ .SelectorExpr x sel := fun x sel he => hsel ⟨x, sel, he⟩
      rw [IsHelperSchemaValueType_not_selector H info e hns] at h
      cases h
  · rintro ⟨x, sel, rfl, h⟩
    exact h

/-- Counterexample to C5 as stated: in a file that dot-imports the SDK package, the
literal `Schema{Type: TypeString}` has a `Type` entry whose value has the static type
`ValueType` and refers to the member `TypeString`, and the result is the empty string. -/
theorem valueType_of_unqualified_member_is_empty :
    writtenValue "Type" litDotImport.Elts = some (.Ident "TypeString")
    ∧ hasValueTypeStaticType sdkHelpers dotImportInfo (.Ident "TypeString") = true
    ∧ referencedMemberName (.Ident "TypeString") = "TypeString"
    ∧ helperSchemaTypeSchemaType sdkHelpers litDotImport dotImportInfo = ""
    ∧ (NewHelperSchemaSchemaInfo sdkHelpers litDotImport dotImportInfo).SchemaValueType = "" :=
  ⟨rfl, by decide, rfl, by decide, by decide⟩

/-- Claim C5, amended. For every schema literal and type table,
`helperSchemaTypeSchemaType`, which is the SchemaValueType of
`NewHelperSchemaSchemaInfo`, is the empty string when the literal has no `Type` entry,
when the value of the `Type` entry is not a selector expression, and when that value
does not have the `ValueType` type as its static type; and when the value of the `Type`
entry is a selector expression whose static type is `ValueType`, the result is the
selected member name. -/
theorem helperSchemaTypeSchemaType_cases (H : Helpers) (cl : CompositeLit) (info : Info) :
    (NewHelperSchemaSchemaInfo H cl info).SchemaValueType = helperSchemaTypeSchemaType H cl info
    ∧ (writtenValue "Type" cl.Elts = none → helperSchemaTypeSchemaType H cl info = "")
    ∧ (∀ v, writtenValue "Type" cl.Elts = some v → (∀ x sel, v ≠ .SelectorExpr x sel) →
        helperSchemaTypeSchemaType H cl info = "")
    ∧ (∀ v, writtenValue "Type" cl.Elts = some v → hasValueTypeStaticType H info v = false →
        helperSchemaTypeSchemaType H cl info = "")
    ∧ (∀ x sel, writtenValue "Type" cl.Elts = some (.SelectorExpr x sel) →
        hasValueTypeStaticType H info (.SelectorExpr x sel) = true →
        helperSchemaTypeSchemaType H cl info = sel) := by
  refine ⟨rfl, ?_, ?_, ?_, ?_⟩
  · intro h
    rw [helperSchemaTypeSchemaType_eq, h]
  · intro v h hv
    rw [helperSchemaTypeSchemaType_eq, h]
    simp [IsHelperSchemaValueType_not_selector H info v hv]
  · intro v h hv
    rw [helperSchemaTypeSchemaType_eq, h]
    by_cases hsel : ∃ x sel, v = .SelectorExpr x sel
    · obtain ⟨x, sel, rfl⟩ := hsel
      simp [IsHelperSchemaValueType_selector, hv]
    · have hns : ∀ x sel, v ≠ .SelectorExpr x sel := fun x sel e => hsel ⟨x, sel, e⟩
      simp [IsHelperSchemaValueType_not_selector H info v hns]
  · intro x sel h hv
    rw [helperSchemaTypeSchemaType_eq, h]
    simp [IsHelperSchemaValueType_selector, hv, helperSchemaValueTypeString]

/-- Witness of C5 amended: `litComputedDefault` has no `Type` entry, `litDotImport` has
one that is no selector, `litTypeUnresolved` one whose selector has no type, and
`litMixed` has `Type: schema.TypeList`. -/
theorem helperSchemaTypeSchemaType_cases_witness :
    (writtenValue "Type" litComputedDefault.Elts = none
      ∧ helperSchemaTypeSchemaType sdkHelpers litComputedDefault sdkInfo = "")
    ∧ (writtenValue "Type" litDotImport.Elts = some (.Ident "TypeString")
      ∧ helperSchemaTypeSchemaType sdkHelpers litDotImport dotImportInfo = "")
    ∧ (writtenValue "Type" litTypeUnresolved.Elts = some (.SelectorExpr (.Ident "cfg") "Kind")
      ∧ hasValueTypeStaticType sdkHelpers sdkInfo (.SelectorExpr (.Ident "cfg") "Kind") = false
      ∧ helperSchemaTypeSchemaType sdkHelpers litTypeUnresolved sdkInfo = "")
    ∧ (writtenValue "Type" litMixed.Elts = some (.SelectorExpr (.Ident "schema") "TypeList")
      ∧ hasValueTypeStaticType sdkHelpers sdkInfo (.SelectorExpr (.Ident "schema") "TypeList")
          = true
      ∧ helperSchemaTypeSchemaType sdkHelpers litMixed sdkInfo = "TypeList") :=
  ⟨⟨rfl, (helperSchemaTypeSchemaType_cases sdkHelpers litComputedDefault sdkInfo).2.1 rfl⟩,
    ⟨rfl, (helperSchemaTypeSchemaType_cases sdkHelpers litDotImport dotImportInfo).2.2.1
      (.Ident "TypeString") rfl (fun _ _ h => Expr.noConfusion h)⟩,
    ⟨rfl, by decide, (helperSchemaTypeSchemaType_cases sdkHelpers litTypeUnresolved sdkInfo).2.2.2.1
      (.SelectorExpr (.Ident "cfg") "Kind") rfl (by decide)⟩,
    ⟨rfl, by decide, (helperSchemaTypeSchemaType_cases sdkHelpers litMixed sdkInfo).2.2.2.2
      (.Ident "schema") "TypeList" rfl (by decide)⟩⟩

/-- Counterexample to C6 as stated: the literal `schema.Schema{Type: schema.TypeInvalid}`
has a `Type` entry of static type `ValueType`, and its SchemaValueType is `TypeInvalid`,
which is neither empty nor one of the seven value-type names. -/
theorem schemaValueType_outside_seven_names :
    hasValueTypeStaticType sdkHelpers sdkInfo (.SelectorExpr (.Ident "schema") "TypeInvalid")
      = true
    ∧ (NewHelperSchemaSchemaInfo sdkHelpers litTypeInvalid sdkInfo).SchemaValueType
      = "TypeInvalid"
    ∧ (NewHelperSchemaSchemaInfo sdkHelpers litTypeInvalid sdkInfo).SchemaValueType ≠ ""
    ∧ (NewHelperSchemaSchemaInfo sdkHelpers litTypeInvalid sdkInfo).SchemaValueType
      ∉ valueTypeNames := by
  decide

/-- Claim C6, amended. For every schema literal and type table, the SchemaValueType
computed by `NewHelperSchemaSchemaInfo` is either the empty string or the selected name
of the `Type` entry's value, a selector expression whose static type is `ValueType`; so
it is one of the seven value-type names whenever it is not empty and that selector
names one of the seven. -/
theorem schemaValueType_empty_or_selected_name (H : Helpers) (cl : CompositeLit) (info : Info) :
    ((NewHelperSchemaSchemaInfo H cl info).SchemaValueType = ""
      ∨ ∃ x sel, writtenValue "Type" cl.Elts = some (.SelectorExpr x sel)
          ∧ hasValueTypeStaticType H info (.SelectorExpr x sel) = true
          ∧ (NewHelperSchemaSchemaInfo H cl info).SchemaValueType = sel)
    ∧ (∀ x sel, writtenValue "Type" cl.Elts = some (.SelectorExpr x sel) →
        sel ∈ valueTypeNames →
        (NewHelperSchemaSchemaInfo H cl info).SchemaValueType = ""
          ∨ (NewHelperSchemaSchemaInfo H cl info).SchemaValueType ∈ valueTypeNames) := by
  have hval : (NewHelperSchemaSchemaInfo H cl info).SchemaValueType
      = helperSchemaTypeSchemaType H cl info := rfl
  rw [hval, helperSchemaTypeSchemaType_eq]
  constructor
  · cases writtenValue "Type" cl.Elts with
    | none => exact Or.inl rfl
    | some v =>
      cases hv : IsHelperSchemaValueType H v info with
      | false => exact Or.inl (by simp [hv])
      | true =>
        obtain ⟨x, sel, rfl, hs⟩ := (IsHelperSchemaValueType_iff H info v).mp hv
        exact Or.inr ⟨x, sel, rfl, hs, by simp [hv, helperSchemaValueTypeString]⟩
  · intro x sel h hmem
    rw [h]
    cases hv : IsHelperSchemaValueType H (.SelectorExpr x sel) info with
    | false => exact Or.inl (by simp [hv])
    | true => exact Or.inr (by simpa [hv, helperSchemaValueTypeString] using hmem)

/-- Witness of C6 amended: the SchemaValueType of `litMixed`, written with
`Type: schema.TypeList`, is one of the seven names. -/
theorem schemaValueType_empty_or_selected_name_witness :
    writtenValue "Type" litMixed.Elts = some (.SelectorExpr (.Ident "schema") "TypeList")
    ∧ "TypeList" ∈ valueTypeNames
    ∧ ((NewHelperSchemaSchemaInfo sdkHelpers litMixed sdkInfo).SchemaValueType = ""
      ∨ (NewHelperSchemaSchemaInfo sdkHelpers litMixed sdkInfo).SchemaValueType
          ∈ valueTypeNames) :=
  ⟨rfl, by decide,
    (schemaValueType_empty_or_selected_name sdkHelpers litMixed sdkInfo).2
      (.Ident "schema") "TypeList" rfl (by decide)⟩

/-! ## Classification by resolved type -/

/-- Pointer indirection over `t` does not change `IsHelperSchemaTypeSchema`. -/
theorem IsHelperSchemaTypeSchema_pointerTo (H : Helpers) (n : Nat) (t : GoType) :
    IsHelperSchemaTypeSchema H (pointerTo n t) = IsHelperSchemaTypeSchema H t := by
  induction n with
  | zero => rfl
  | succ k ih => exact ih

/-- Pointer indirection over `t` does not change `IsHelperSchemaTypeSet`. -/
theorem IsHelperSchemaTypeSet_pointerTo (H : Helpers) (n : Nat) (t : GoType) :
    IsHelperSchemaTypeSet H (pointerTo n t) = IsHelperSchemaTypeSet H t := by
  induction n with
  | zero => rfl
  | succ k ih => exact ih

/-- The function `IsHelperSchemaTypeSchema` holds exactly for the named types that pass
the identity check against `Schema`, under any number of pointers. -/
theorem IsHelperSchemaTypeSchema_iff (H : Helpers) (t : GoType) :
    IsHelperSchemaTypeSchema H t = true ↔
      ∃ n obj, t = pointerTo n (.Named obj) ∧ H.IsHelperSchemaNamedType obj "Schema" = true := by
  induction t with
  | Named obj =>
    constructor
    · intro h
      exact ⟨0, obj, rfl, h⟩
    · rintro ⟨n, obj2, he, h⟩
      cases n with
      | zero =>
        cases he
        exact h
      | succ k => cases he
  | Pointer elem ih =>
    constructor
    · intro h
      obtain ⟨n, obj, he, hn⟩ := ih.mp h
      exact ⟨n + 1, obj, by rw [he]; rfl, hn⟩
    · rintro ⟨n, obj, he, h⟩
      cases n with
      | zero => cases he
      | succ k =>
        have he2 : elem = pointerTo k (.Named obj) := by
          simp only [pointerTo, GoType.Pointer.injEq] at he
          exact he
        exact ih.mpr ⟨k, obj, he2, h⟩
  | _ =>
    constructor
    · intro h
      cases h
    · rintro ⟨n, obj, he, _⟩
      cases n with
      | zero => cases he
      | succ k => cases he

/-- Claim C7. `IsHelperSchemaTypeSchema` is a total function that is transparent to
pointer indirection: for every type `t` and every number `n` of pointer levels its value
on the `n`-fold pointer to `t` is its value on `t`; on a named type it is the named-type
identity check against `Schema`; on every type that is neither named nor a pointer it is
false.  The same holds for `IsHelperSchemaTypeSet` with `Set`. -/
theorem pointer_transparent_classification (H : Helpers) :
    (∀ t n, IsHelperSchemaTypeSchema H (pointerTo n t) = IsHelperSchemaTypeSchema H t)
    ∧ (∀ obj, IsHelperSchemaTypeSchema H (.Named obj) = H.IsHelperSchemaNamedType obj "Schema")
    ∧ (∀ t, (∀ obj, t ≠ .Named obj) → (∀ elem, t ≠ .Pointer elem) →
        IsHelperSchemaTypeSchema H t = false)
    ∧ (∀ t n, IsHelperSchemaTypeSet H (pointerTo n t) = IsHelperSchemaTypeSet H t)
    ∧ (∀ obj, IsHelperSchemaTypeSet H (.Named obj) = H.IsHelperSchemaNamedType obj "Set")
    ∧ (∀ t, (∀ obj, t ≠ .Named obj) → (∀ elem, t ≠ .Pointer elem) →
        IsHelperSchemaTypeSet H t = false) := by
  refine ⟨fun t n => IsHelperSchemaTypeSchema_pointerTo H n t, fun _ => rfl, ?_,
    fun t n => IsHelperSchemaTypeSet_pointerTo H n t, fun _ => rfl, ?_⟩
  · intro t hn hp
    cases t <;> first | rfl | exact absurd rfl (hn _) | exact absurd rfl (hp _)
  · intro t hn hp
    cases t <;> first | rfl | exact absurd rfl (hn _) | exact absurd rfl (hp _)

/-- Witness of C7: a map type is neither named nor a pointer; the double pointer to
`schema.Schema` classifies as `schema.Schema` does. -/
theorem pointer_transparent_classification_witness :
    IsHelperSchemaTypeSchema sdkHelpers
        (.Map (.Basic "string") (.Pointer (.Named ⟨some helperSchemaPath, "Schema"⟩))) = false
    ∧ IsHelperSchemaTypeSet sdkHelpers (.Slice (.Basic "string")) = false
    ∧ IsHelperSchemaTypeSchema sdkHelpers
        (pointerTo 2 (.Named ⟨some helperSchemaPath, "Schema"⟩))
      = IsHelperSchemaTypeSchema sdkHelpers (.Named ⟨some helperSchemaPath, "Schema"⟩)
    ∧ IsHelperSchemaTypeSchema sdkHelpers (.Named ⟨some helperSchemaPath, "Schema"⟩) = true :=
  ⟨(pointer_transparent_classification sdkHelpers).2.2.1 _
      (fun _ h => GoType.noConfusion h) (fun _ h => GoType.noConfusion h),
    (pointer_transparent_classification sdkHelpers).2.2.2.2.2 _
      (fun _ h => GoType.noConfusion h) (fun _ h => GoType.noConfusion h),
    (pointer_transparent_classification sdkHelpers).1 _ 2,
    ((pointer_transparent_classification sdkHelpers).2.1 _).trans (by decide)⟩

/-- Counterexample to C8 as stated: the literal `SchemaMap{...}`, written through an
alias of `map[string]*schema.Schema`, and the literal `map[Key]*schema.Schema{...}`,
whose key type is written through an alias of `string`, both have the type
`map[string]*schema.Schema`, and neither is classified. -/
theorem map_classification_follows_spelling :
    (isMapStringPointerSchema sdkHelpers (sdkInfo.TypeOf (CompositeLitExpr litAliasMap)) = true
      ∧ IsMapStringHelperSchemaTypeSchema sdkHelpers litAliasMap sdkInfo = false)
    ∧ (isMapStringPointerSchema sdkHelpers (sdkInfo.TypeOf (CompositeLitExpr litNamedKeyMap))
        = true
      ∧ IsMapStringHelperSchemaTypeSchema sdkHelpers litNamedKeyMap sdkInfo = false) := by
  decide

/-- Two behaviours that the comment of `IsMapStringHelperSchemaTypeSchema` ("returns if
the type is map[string]*Schema") does not cover and that no statement here relies on:
the map of structs `map[string]schema.Schema{}` and a map whose key type is not written
as an identifier, `map[other.Key]*schema.Schema{}`, are both classified. -/
theorem map_classification_beyond_its_comment :
    IsMapStringHelperSchemaTypeSchema sdkHelpers litStructMap sdkInfo = true
    ∧ IsMapStringHelperSchemaTypeSchema sdkHelpers
        ⟨.MapType (.SelectorExpr (.Ident "other") "Key")
          (.StarExpr (.SelectorExpr (.Ident "schema") "Schema")), []⟩ sdkInfo = true := by
  decide

/-- Claim C8, amended. For every composite literal and type table,
`IsMapStringHelperSchemaTypeSchema` returns false when the literal's type expression is
not written as a map type, when the map type's key is written as an identifier other
than `string`, and when the value type expression resolves neither to the `helper/schema`
Schema type nor to a chain of pointers to it; it returns true when the type expression
is a map type whose key is the identifier `string` and whose value type expression
resolves to pointer to the `helper/schema` Schema struct, as `map[string]*Schema`
does. -/
theorem IsMapStringHelperSchemaTypeSchema_cases (H : Helpers) (cl : CompositeLit)
    (info : Info) :
    ((∀ key value, cl.Type_ ≠ .MapType key value) →
      IsMapStringHelperSchemaTypeSchema H cl info = false)
    ∧ (∀ name value, cl.Type_ = .MapType (.Ident name) value → name ≠ "string" →
      IsMapStringHelperSchemaTypeSchema H cl info = false)
    ∧ (∀ key value, cl.Type_ = .MapType key value →
      (∀ n obj, info.TypeOf value = pointerTo n (.Named obj) →
        H.IsHelperSchemaNamedType obj "Schema" = false) →
      IsMapStringHelperSchemaTypeSchema H cl info = false)
    ∧ (∀ value obj, cl.Type_ = .MapType (.Ident "string") value →
      info.TypeOf value = .Pointer (.Named obj) →
      H.IsHelperSchemaNamedType obj "Schema" = true →
      IsMapStringHelperSchemaTypeSchema H cl info = true) := by
  obtain ⟨ty, elts⟩ := cl
  refine ⟨?_, ?_, ?_, ?_⟩
  · intro h
    simp only at h
    unfold IsMapStringHelperSchemaTypeSchema
    cases ty <;> first | rfl | exact absurd rfl (h _ _)
  · intro name value h hn
    simp only at h
    subst h
    simp [IsMapStringHelperSchemaTypeSchema, hn]
  · intro key value h hno
    simp only at h
    subst h
    have hv : IsHelperSchemaTypeSchema H (info.TypeOf value) = false := by
      cases hc : IsHelperSchemaTypeSchema H (info.TypeOf value) with
      | false => rfl
      | true =>
        obtain ⟨n, obj, ht, hn⟩ := (IsHelperSchemaTypeSchema_iff H _).mp hc
        rw [hno n obj ht] at hn
        cases hn
    unfold IsMapStringHelperSchemaTypeSchema
    simp only [hv]
    cases key <;> simp
  · intro value obj h ht hn
    simp only at h
    subst h
    simp [IsMapStringHelperSchemaTypeSchema, ht, IsHelperSchemaTypeSchema, TypeNameSchema, hn]

/-- Witness of C8 amended: the alias-written literal, the literal with the key type
written `Key`, a map of strings, and `map[string]*schema.Schema{...}`. -/
theorem IsMapStringHelperSchemaTypeSchema_cases_witness :
    IsMapStringHelperSchemaTypeSchema sdkHelpers litAliasMap sdkInfo = false
    ∧ IsMapStringHelperSchemaTypeSchema sdkHelpers litNamedKeyMap sdkInfo = false
    ∧ IsMapStringHelperSchemaTypeSchema sdkHelpers
        ⟨.MapType (.Ident "string") (.Ident "string"), []⟩ sdkInfo = false
    ∧ (sdkInfo.TypeOf (.StarExpr (.SelectorExpr (.Ident "schema") "Schema"))
        = .Pointer (.Named ⟨some helperSchemaPath, "Schema"⟩)
      ∧ sdkHelpers.IsHelperSchemaNamedType ⟨some helperSchemaPath, "Schema"⟩ "Schema" = true
      ∧ IsMapStringHelperSchemaTypeSchema sdkHelpers (litSchemaMap "schema") sdkInfo = true) :=
  ⟨(IsMapStringHelperSchemaTypeSchema_cases sdkHelpers litAliasMap sdkInfo).1
      (fun _ _ h => Expr.noConfusion h),
    (IsMapStringHelperSchemaTypeSchema_cases sdkHelpers litNamedKeyMap sdkInfo).2.1
      "Key" _ rfl (by decide),
    (IsMapStringHelperSchemaTypeSchema_cases sdkHelpers
      ⟨.MapType (.Ident "string") (.Ident "string"), []⟩ sdkInfo).2.2.1 _ _ rfl
      (fun n obj h => by
        have ht : sdkInfo.TypeOf (.Ident "string") = .Basic "string" := by decide
        rw [ht] at h
        cases n <;> simp [pointerTo] at h),
    ⟨by decide, by decide,
      (IsMapStringHelperSchemaTypeSchema_cases sdkHelpers (litSchemaMap "schema") sdkInfo).2.2.2
        _ ⟨some helperSchemaPath, "Schema"⟩ rfl (by decide) (by decide)⟩⟩

/-- Counterexample to C9 as stated: the literals `SchemaMap{...}` (written through a
type alias) and `map[Key]*schema.Schema{...}` (key type written through an alias of
string) have the same resolved type as `map[string]*schema.Schema{...}`, and
`IsMapStringHelperSchemaTypeSchema` answers false for them and true for the latter. -/
theorem map_classification_differs_on_identical_types :
    sdkInfo.TypeOf (CompositeLitExpr litAliasMap)
      = sdkInfo.TypeOf (CompositeLitExpr (litSchemaMap "schema"))
    ∧ sdkInfo.TypeOf (CompositeLitExpr litNamedKeyMap)
      = sdkInfo.TypeOf (CompositeLitExpr (litSchemaMap "schema"))
    ∧ IsMapStringHelperSchemaTypeSchema sdkHelpers (litSchemaMap "schema") sdkInfo = true
    ∧ IsMapStringHelperSchemaTypeSchema sdkHelpers litAliasMap sdkInfo = false
    ∧ IsMapStringHelperSchemaTypeSchema sdkHelpers litNamedKeyMap sdkInfo = false := by
  decide

/-- Claim C9, amended. `IsHelperSchemaTypeSchema` is decided by the resolved type alone:
it is true exactly when the resolved type is a named type, under any number of pointers,
that passes the identity check against `Schema`, so two expressions that resolve to the
same named type get the same answer, the identity check of that type, whatever import
alias or qualification writes them.  `IsMapStringHelperSchemaTypeSchema` also depends on
how the type of the literal is written: a literal whose type expression is not written
as a map type (elided, an identifier, a qualified name) is not classified, nor is one
whose key type is written as an identifier other than `string`; two literals written as
map types with the key identifier `string` get the same answer when their value type
expressions have identical resolved types. -/
theorem classification_by_resolved_type (H : Helpers) :
    (∀ (info : Info) (e : Expr),
      IsHelperSchemaTypeSchema H (info.TypeOf e) = true ↔
        ∃ n obj, info.TypeOf e = pointerTo n (.Named obj)
          ∧ H.IsHelperSchemaNamedType obj "Schema" = true)
    ∧ (∀ (info1 info2 : Info) (e1 e2 : Expr) (n1 n2 : Nat) (obj : TypeName),
      info1.TypeOf e1 = pointerTo n1 (.Named obj) →
      info2.TypeOf e2 = pointerTo n2 (.Named obj) →
      IsHelperSchemaTypeSchema H (info1.TypeOf e1) = H.IsHelperSchemaNamedType obj "Schema"
      ∧ IsHelperSchemaTypeSchema H (info2.TypeOf e2) = H.IsHelperSchemaNamedType obj "Schema")
    ∧ (∀ (cl1 cl2 : CompositeLit) (info1 info2 : Info) (v1 v2 : Expr),
      cl1.Type_ = .MapType (.Ident "string") v1 → cl2.Type_ = .MapType (.Ident "string") v2 →
      info1.TypeOf v1 = info2.TypeOf v2 →
      IsMapStringHelperSchemaTypeSchema H cl1 info1
        = IsMapStringHelperSchemaTypeSchema H cl2 info2)
    ∧ (∀ (cl : CompositeLit) (info : Info), (∀ key value, cl.Type_ ≠ .MapType key value) →
      IsMapStringHelperSchemaTypeSchema H cl info = false)
    ∧ (∀ (cl : CompositeLit) (info : Info) (name : String) (value : Expr),
      cl.Type_ = .MapType (.Ident name) value → name ≠ "string" →
      IsMapStringHelperSchemaTypeSchema H cl info = false) := by
  refine ⟨?_, ?_, ?_, ?_, ?_⟩
  · intro info e
    exact IsHelperSchemaTypeSchema_iff H (info.TypeOf e)
  · intro info1 info2 e1 e2 n1 n2 obj h1 h2
    rw [h1, h2, IsHelperSchemaTypeSchema_pointerTo, IsHelperSchemaTypeSchema_pointerTo]
    exact ⟨rfl, rfl⟩
  · intro cl1 cl2 info1 info2 v1 v2 h1 h2 h
    simp [IsMapStringHelperSchemaTypeSchema, h1, h2, h]
  · intro cl info h
    obtain ⟨ty, elts⟩ := cl
    simp only at h
    unfold IsMapStringHelperSchemaTypeSchema
    cases ty <;> first | rfl | exact absurd rfl (h _ _)
  · intro cl info name value h hn
    simp [IsMapStringHelperSchemaTypeSchema, h, hn]

/-- Witness of C9 amended: the test data writes `s.Schema` and `map[string]*s.Schema`
under the alias `s`; they classify as `*schema.Schema` and `map[string]*schema.Schema`
do under the default package name.  The literals `SchemaMap{...}` and
`other.SchemaMap{}`, written through a named type, and `map[Key]*schema.Schema{...}`
are not classified. -/
theorem classification_by_resolved_type_witness :
    (aliasInfo.TypeOf (.SelectorExpr (.Ident "s") "Schema")
        = pointerTo 0 (.Named ⟨some helperSchemaPathV2, "Schema"⟩)
      ∧ sdkInfoV2.TypeOf (.StarExpr (.SelectorExpr (.Ident "schema") "Schema"))
        = pointerTo 1 (.Named ⟨some helperSchemaPathV2, "Schema"⟩)
      ∧ IsHelperSchemaTypeSchema sdkHelpers
          (aliasInfo.TypeOf (.SelectorExpr (.Ident "s") "Schema")) = true
      ∧ IsHelperSchemaTypeSchema sdkHelpers
          (sdkInfoV2.TypeOf (.StarExpr (.SelectorExpr (.Ident "schema") "Schema"))) = true)
    ∧ (aliasInfo.TypeOf (.StarExpr (.SelectorExpr (.Ident "s") "Schema"))
        = sdkInfoV2.TypeOf (.StarExpr (.SelectorExpr (.Ident "schema") "Schema"))
      ∧ IsMapStringHelperSchemaTypeSchema sdkHelpers (litSchemaMap "s") aliasInfo
        = IsMapStringHelperSchemaTypeSchema sdkHelpers (litSchemaMap "schema") sdkInfoV2)
    ∧ IsMapStringHelperSchemaTypeSchema sdkHelpers (litSchemaMap "s") aliasInfo = true
    ∧ IsMapStringHelperSchemaTypeSchema sdkHelpers litAliasMap sdkInfo = false
    ∧ IsMapStringHelperSchemaTypeSchema sdkHelpers
        ⟨.SelectorExpr (.Ident "other") "SchemaMap", []⟩ sdkInfo = false
    ∧ IsMapStringHelperSchemaTypeSchema sdkHelpers litNamedKeyMap sdkInfo = false :=
  ⟨⟨by decide, by decide,
      ((classification_by_resolved_type sdkHelpers).1 aliasInfo _).mpr
        ⟨0, ⟨some helperSchemaPathV2, "Schema"⟩, by decide, by decide⟩,
      (((classification_by_resolved_type sdkHelpers).2.1 aliasInfo sdkInfoV2
        (.SelectorExpr (.Ident "s") "Schema")
        (.StarExpr (.SelectorExpr (.Ident "schema") "Schema")) 0 1
        ⟨some helperSchemaPathV2, "Schema"⟩ (by decide) (by decide)).2).trans (by decide)⟩,
    ⟨by decide,
      (classification_by_resolved_type sdkHelpers).2.2.1 (litSchemaMap "s")
        (litSchemaMap "schema") aliasInfo sdkInfoV2 _ _ rfl rfl (by decide)⟩,
    by decide,
    (classification_by_resolved_type sdkHelpers).2.2.2.1 litAliasMap sdkInfo
      (fun _ _ h => Expr.noConfusion h),
    (classification_by_resolved_type sdkHelpers).2.2.2.1
      ⟨.SelectorExpr (.Ident "other") "SchemaMap", []⟩ sdkInfo
      (fun _ _ h => Expr.noConfusion h),
    (classification_by_resolved_type sdkHelpers).2.2.2.2 litNamedKeyMap sdkInfo "Key" _ rfl
      (by decide)⟩

/-- Claim C10. A resolution gap is handled by exclusion: on the nil type
`IsHelperSchemaTypeSchema` and `IsHelperSchemaTypeSet` are false; for every expression
without a type in the table `IsHelperSchemaValueType` is false; for every literal whose
map value type expression, if it has one, is without a type
`IsMapStringHelperSchemaTypeSchema` is false; and for every schema literal whose `Type`
value, if it has one, is without a type `helperSchemaTypeSchemaType` is the empty
string.  All five are total functions. -/
theorem resolution_gap_excluded (H : Helpers) (info : Info) :
    IsHelperSchemaTypeSchema H .nil = false
    ∧ IsHelperSchemaTypeSet H .nil = false
    ∧ (∀ e, info.TypeOf e = .nil →
        IsHelperSchemaTypeSchema H (info.TypeOf e) = false
        ∧ IsHelperSchemaTypeSet H (info.TypeOf e) = false
        ∧ IsHelperSchemaValueType H e info = false)
    ∧ (∀ cl, (∀ key value, cl.Type_ = .MapType key value → info.TypeOf value = .nil) →
        IsMapStringHelperSchemaTypeSchema H cl info = false)
    ∧ (∀ cl, (∀ v, writtenValue "Type" cl.Elts = some v → info.TypeOf v = .nil) →
        helperSchemaTypeSchemaType H cl info = "") := by
  refine ⟨rfl, rfl, ?_, ?_, ?_⟩
  · intro e h
    refine ⟨by rw [h]; rfl, by rw [h]; rfl, ?_⟩
    cases e <;> first | rfl | simp [IsHelperSchemaValueType, h]
  · intro cl h
    obtain ⟨ty, elts⟩ := cl
    simp only at h
    unfold IsMapStringHelperSchemaTypeSchema
    cases ty with
    | MapType key value =>
      have hv := h key value rfl
      simp only [hv]
      cases key <;> simp [IsHelperSchemaTypeSchema]
    | _ => rfl
  · intro cl h
    rw [helperSchemaTypeSchemaType_eq]
    cases hw : writtenValue "Type" cl.Elts with
    | none => rfl
    | some v =>
      have hv := h v hw
      have : IsHelperSchemaValueType H v info = false := by
        cases v <;> first | rfl | simp [IsHelperSchemaValueType, hv]
      simp [this]

/-- Witness of C10: in the table `sdkInfo` the selector `cfg.Kind` and the type
expression `other.Schema` have no type. -/
theorem resolution_gap_excluded_witness :
    sdkInfo.TypeOf (.SelectorExpr (.Ident "cfg") "Kind") = .nil
    ∧ IsHelperSchemaValueType sdkHelpers (.SelectorExpr (.Ident "cfg") "Kind") sdkInfo = false
    ∧ IsMapStringHelperSchemaTypeSchema sdkHelpers
        ⟨.MapType (.Ident "string") (.StarExpr (.SelectorExpr (.Ident "other") "Schema")), []⟩
        sdkInfo = false
    ∧ helperSchemaTypeSchemaType sdkHelpers litTypeUnresolved sdkInfo = "" :=
  ⟨by decide,
    ((resolution_gap_excluded sdkHelpers sdkInfo).2.2.1 _ (by decide)).2.2,
    (resolution_gap_excluded sdkHelpers sdkInfo).2.2.2.1 _
      (fun key value h => by cases h; decide),
    (resolution_gap_excluded sdkHelpers sdkInfo).2.2.2.2 litTypeUnresolved
      (fun v h => by cases h; decide)⟩

/-! ## Schema maps -/

/-- The loop of `GetSchemaMapAttributeNames` appends the keys of the key-value elements
to what it has collected. -/
theorem attributeNames_foldl (elts : List Expr) (acc : List Expr) :
    elts.foldl
        (fun result elt =>
          match elt with
          | .KeyValueExpr key _ => result ++ [key]
          | _ => result)
        acc
      = acc ++ elts.filterMap entryKey := by
  induction elts generalizing acc with
  | nil => simp
  | cons e es ih =>
    rw [List.foldl_cons, ih]
    cases e <;> simp [entryKey, List.filterMap_cons]

/-- The loop of `GetSchemaMapSchemas` appends the composite literals that are values of
key-value elements to what it has collected. -/
theorem schemas_foldl (elts : List Expr) (acc : List CompositeLit) :
    elts.foldl
        (fun result elt =>
          match elt with
          | .KeyValueExpr _ (.CompositeLit type elts) => result ++ [⟨type, elts⟩]
          | _ => result)
        acc
      = acc ++ elts.filterMap entrySchema := by
  induction elts generalizing acc with
  | nil => simp
  | cons e es ih =>
    rw [List.foldl_cons, ih]
    cases e with
    | KeyValueExpr key value =>
      cases value <;> simp [entrySchema, List.filterMap_cons]
    | _ => simp [entrySchema, List.filterMap_cons]

/-- The attribute names are the keys of the key-value elements. -/
theorem attributeNames_eq (cl : CompositeLit) :
    GetSchemaMapAttributeNames cl = cl.Elts.filterMap entryKey := by
  unfold GetSchemaMapAttributeNames
  rw [attributeNames_foldl, List.nil_append]

/-- The schemas are the composite-literal values of the key-value elements. -/
theorem schemas_eq (cl : CompositeLit) :
    GetSchemaMapSchemas cl = cl.Elts.filterMap entrySchema := by
  unfold GetSchemaMapSchemas
  rw [schemas_foldl, List.nil_append]

/-- An element with a schema literal has a key. -/
theorem entryKey_isSome_of_entrySchema (elt : Expr) (h : (entrySchema elt).isSome = true) :
    (entryKey elt).isSome = true := by
  cases elt with
  | KeyValueExpr key value => rfl
  | _ => simp [entrySchema] at h

/-! ## The Computed/Default predicate -/

/-- The eight scalar fields of the record, as functions of the written values. -/
theorem schema_scalar_fields_eq (H : Helpers) (cl : CompositeLit) (info : Info) :
    (NewHelperSchemaSchemaInfo H cl info).Schema.Computed
        = ((writtenValue "Computed" cl.Elts).bind H.ExprBoolValue).getD false
    ∧ (NewHelperSchemaSchemaInfo H cl info).Schema.ForceNew
        = ((writtenValue "ForceNew" cl.Elts).bind H.ExprBoolValue).getD false
    ∧ (NewHelperSchemaSchemaInfo H cl info).Schema.Optional
        = ((writtenValue "Optional" cl.Elts).bind H.ExprBoolValue).getD false
    ∧ (NewHelperSchemaSchemaInfo H cl info).Schema.Required
        = ((writtenValue "Required" cl.Elts).bind H.ExprBoolValue).getD false
    ∧ (NewHelperSchemaSchemaInfo H cl info).Schema.Sensitive
        = ((writtenValue "Sensitive" cl.Elts).bind H.ExprBoolValue).getD false
    ∧ (NewHelperSchemaSchemaInfo H cl info).Schema.MaxItems
        = ((writtenValue "MaxItems" cl.Elts).bind H.ExprIntValue).getD 0
    ∧ (NewHelperSchemaSchemaInfo H cl info).Schema.MinItems
        = ((writtenValue "MinItems" cl.Elts).bind H.ExprIntValue).getD 0
    ∧ (NewHelperSchemaSchemaInfo H cl info).Schema.Description
        = ((writtenValue "Description" cl.Elts).bind H.ExprStringValue).getD "" := by
  simp only [NewHelperSchemaSchemaInfo]
  refine ⟨?_, ?_, ?_, ?_, ?_, ?_, ?_, ?_⟩
  · repeat (refine Eq.trans (assignField_frame Schema.Computed _ _ _ _ _ (by intro v s; rfl)) ?_)
    rw [assignField_eq]
    show _ = ((writtenValue SchemaFieldComputed cl.Elts).bind H.ExprBoolValue).getD false
    generalize (writtenValue SchemaFieldComputed cl.Elts).bind H.ExprBoolValue = o
    cases o with
    | some v => rfl
    | none => rfl
  · repeat (refine Eq.trans (assignField_frame Schema.ForceNew _ _ _ _ _ (by intro v s; rfl)) ?_)
    rw [assignField_eq]
    show _ = ((writtenValue SchemaFieldForceNew cl.Elts).bind H.ExprBoolValue).getD false
    generalize (writtenValue SchemaFieldForceNew cl.Elts).bind H.ExprBoolValue = o
    cases o with
    | some v => rfl
    | none =>
      show Schema.ForceNew _ = false
      repeat (refine Eq.trans (assignField_frame Schema.ForceNew _ _ _ _ _ (by intro v s; rfl)) ?_)
      rfl
  · repeat (refine Eq.trans (assignField_frame Schema.Optional _ _ _ _ _ (by intro v s; rfl)) ?_)
    rw [assignField_eq]
    show _ = ((writtenValue SchemaFieldOptional cl.Elts).bind H.ExprBoolValue).getD false
    generalize (writtenValue SchemaFieldOptional cl.Elts).bind H.ExprBoolValue = o
    cases o with
    | some v => rfl
    | none =>
      show Schema.Optional _ = false
      repeat (refine Eq.trans (assignField_frame Schema.Optional _ _ _ _ _ (by intro v s; rfl)) ?_)
      rfl
  · repeat (refine Eq.trans (assignField_frame Schema.Required _ _ _ _ _ (by intro v s; rfl)) ?_)
    rw [assignField_eq]
    show _ = ((writtenValue SchemaFieldRequired cl.Elts).bind H.ExprBoolValue).getD false
    generalize (writtenValue SchemaFieldRequired cl.Elts).bind H.ExprBoolValue = o
    cases o with
    | some v => rfl
    | none =>
      show Schema.Required _ = false
      repeat (refine Eq.trans (assignField_frame Schema.Required _ _ _ _ _ (by intro v s; rfl)) ?_)
      rfl
  · repeat (refine Eq.trans (assignField_frame Schema.Sensitive _ _ _ _ _ (by intro v s; rfl)) ?_)
    rw [assignField_eq]
    show _ = ((writtenValue SchemaFieldSensitive cl.Elts).bind H.ExprBoolValue).getD false
    generalize (writtenValue SchemaFieldSensitive cl.Elts).bind H.ExprBoolValue = o
    cases o with
    | some v => rfl
    | none =>
      show Schema.Sensitive _ = false
      repeat (refine Eq.trans (assignField_frame Schema.Sensitive _ _ _ _ _ (by intro v s; rfl)) ?_)
      rfl
  · repeat (refine Eq.trans (assignField_frame Schema.MaxItems _ _ _ _ _ (by intro v s; rfl)) ?_)
    rw [assignField_eq]
    show _ = ((writtenValue SchemaFieldMaxItems cl.Elts).bind H.ExprIntValue).getD 0
    generalize (writtenValue SchemaFieldMaxItems cl.Elts).bind H.ExprIntValue = o
    cases o with
    | some v => rfl
    | none =>
      show Schema.MaxItems _ = 0
      repeat (refine Eq.trans (assignField_frame Schema.MaxItems _ _ _ _ _ (by intro v s; rfl)) ?_)
      rfl
  · repeat (refine Eq.trans (assignField_frame Schema.MinItems _ _ _ _ _ (by intro v s; rfl)) ?_)
    rw [assignField_eq]
    show _ = ((writtenValue SchemaFieldMinItems cl.Elts).bind H.ExprIntValue).getD 0
    generalize (writtenValue SchemaFieldMinItems cl.Elts).bind H.ExprIntValue = o
    cases o with
    | some v => rfl
    | none =>
      show Schema.MinItems _ = 0
      repeat (refine Eq.trans (assignField_frame Schema.MinItems _ _ _ _ _ (by intro v s; rfl)) ?_)
      rfl
  · repeat (refine Eq.trans (assignField_frame Schema.Description _ _ _ _ _ (by intro v s; rfl)) ?_)
    rw [assignField_eq]
    show _ = ((writtenValue SchemaFieldDescription cl.Elts).bind H.ExprStringValue).getD ""
    generalize (writtenValue SchemaFieldDescription cl.Elts).bind H.ExprStringValue = o
    cases o with
    | some v => rfl
    | none =>
      show Schema.Description _ = ""
      repeat (refine Eq.trans (assignField_frame Schema.Description _ _ _ _ _ (by intro v s; rfl)) ?_)
      rfl

/-- The schema and the field record of a literal depend on its elements only, not on
its type expression or the type table. -/
theorem newInfo_elts_only (H : Helpers) (ty1 ty2 : Expr) (elts : List Expr)
    (info1 info2 : Info) :
    (NewHelperSchemaSchemaInfo H ⟨ty1, elts⟩ info1).Schema
        = (NewHelperSchemaSchemaInfo H ⟨ty2, elts⟩ info2).Schema
    ∧ (NewHelperSchemaSchemaInfo H ⟨ty1, elts⟩ info1).Fields
        = (NewHelperSchemaSchemaInfo H ⟨ty2, elts⟩ info2).Fields := by
  have hf : astCompositeLitFields ⟨ty1, elts⟩ = astCompositeLitFields ⟨ty2, elts⟩ := rfl
  constructor
  · simp only [NewHelperSchemaSchemaInfo, hf]
  · exact hf

/-- The declaration query of a built record, by the written value. -/
theorem declaresField_eq (H : Helpers) (cl : CompositeLit) (info : Info) (f : String) :
    (NewHelperSchemaSchemaInfo H cl info).DeclaresField f = (writtenValue f cl.Elts).isSome := by
  simp [HelperSchemaSchemaInfo.DeclaresField, NewHelperSchemaSchemaInfo,
    astCompositeLitFields_eq]

/-- Claim C11. For every schema literal in which Computed is written with a value that
decodes to true, Default is written with a literal, and none of Optional, Required,
ForceNew is written, the record built by `NewHelperSchemaSchemaInfo` satisfies the
Computed/Default predicate: Schema.Computed is true, Schema.Default is declared, and
`DeclaresField` is false for Optional, Required and ForceNew.  The predicate depends on
the elements of the literal only, so it is the same under every type expression and
type table (whichever alias names the schema package), and a literal that is the value
of a schema-map entry is among the schemas of the map with its own elements. -/
theorem computed_default_predicate_holds (H : Helpers) (info : Info) :
    (∀ (cl : CompositeLit) (vc : Expr) (kind value : String),
      writtenValue "Computed" cl.Elts = some vc → H.ExprBoolValue vc = some true →
      writtenValue "Default" cl.Elts = some (.BasicLit kind value) →
      writtenValue "Optional" cl.Elts = none → writtenValue "Required" cl.Elts = none →
      writtenValue "ForceNew" cl.Elts = none →
      computedDefaultPredicate (NewHelperSchemaSchemaInfo H cl info) = true
      ∧ (NewHelperSchemaSchemaInfo H cl info).Schema.Computed = true
      ∧ (NewHelperSchemaSchemaInfo H cl info).Schema.Default ≠ none
      ∧ (NewHelperSchemaSchemaInfo H cl info).DeclaresField "Optional" = false
      ∧ (NewHelperSchemaSchemaInfo H cl info).DeclaresField "Required" = false
      ∧ (NewHelperSchemaSchemaInfo H cl info).DeclaresField "ForceNew" = false)
    ∧ (∀ (ty1 ty2 : Expr) (elts : List Expr) (info2 : Info),
      computedDefaultPredicate (NewHelperSchemaSchemaInfo H ⟨ty1, elts⟩ info)
        = computedDefaultPredicate (NewHelperSchemaSchemaInfo H ⟨ty2, elts⟩ info2))
    ∧ (∀ (m : CompositeLit) (key ty : Expr) (elts : List Expr),
      Expr.KeyValueExpr key (.CompositeLit ty elts) ∈ m.Elts →
      (⟨ty, elts⟩ : CompositeLit) ∈ GetSchemaMapSchemas m) := by
  refine ⟨?_, ?_, ?_⟩
  · intro cl vc kind value hc hcv hd ho hr hf
    have hcomp : (NewHelperSchemaSchemaInfo H cl info).Schema.Computed = true := by
      rw [(schema_scalar_fields_eq H cl info).1, hc]
      simp [hcv]
    have hdef : (NewHelperSchemaSchemaInfo H cl info).Schema.Default = some () := by
      rw [(newInfo_marker_fields_eq H cl info).2.1, hd]
      rfl
    have hopt : (NewHelperSchemaSchemaInfo H cl info).DeclaresField "Optional" = false := by
      rw [declaresField_eq, ho]; rfl
    have hreq : (NewHelperSchemaSchemaInfo H cl info).DeclaresField "Required" = false := by
      rw [declaresField_eq, hr]; rfl
    have hfn : (NewHelperSchemaSchemaInfo H cl info).DeclaresField "ForceNew" = false := by
      rw [declaresField_eq, hf]; rfl
    refine ⟨?_, hcomp, by rw [hdef]; exact Option.some_ne_none _, hopt, hreq, hfn⟩
    unfold computedDefaultPredicate
    rw [hcomp, hdef]
    rw [show SchemaFieldOptional = "Optional" from rfl, show SchemaFieldRequired = "Required" from rfl,
      show SchemaFieldForceNew = "ForceNew" from rfl, hopt, hreq, hfn]
    rfl
  · intro ty1 ty2 elts info2
    obtain ⟨hs, hf⟩ := newInfo_elts_only H ty1 ty2 elts info info2
    simp only [computedDefaultPredicate, HelperSchemaSchemaInfo.DeclaresField, hs, hf]
  · intro m key ty elts hmem
    rw [schemas_eq, List.mem_filterMap]
    exact ⟨_, hmem, rfl⟩

/-- Witness of C11: the literal `s.Schema{Computed: true, Default: "test"}` of the test
data satisfies the predicate, as does the same literal under the package's own name,
and the map `map[string]*s.Schema{"name": {Computed: true, Default: "test"}}` has the
literal with these elements among its schemas. -/
theorem computed_default_predicate_holds_witness :
    (writtenValue "Computed" litAliasComputedDefault.Elts = some (.Ident "true")
      ∧ sdkHelpers.ExprBoolValue (.Ident "true") = some true
      ∧ writtenValue "Default" litAliasComputedDefault.Elts
          = some (.BasicLit "STRING" "\"test\"")
      ∧ writtenValue "Optional" litAliasComputedDefault.Elts = none
      ∧ writtenValue "Required" litAliasComputedDefault.Elts = none
      ∧ writtenValue "ForceNew" litAliasComputedDefault.Elts = none
      ∧ computedDefaultPredicate
          (NewHelperSchemaSchemaInfo sdkHelpers litAliasComputedDefault aliasInfo) = true)
    ∧ computedDefaultPredicate
          (NewHelperSchemaSchemaInfo sdkHelpers litAliasComputedDefault aliasInfo)
        = computedDefaultPredicate
          (NewHelperSchemaSchemaInfo sdkHelpers litComputedDefault sdkInfo)
    ∧ (⟨.nil, litAliasComputedDefault.Elts⟩ : CompositeLit)
        ∈ GetSchemaMapSchemas (litSchemaMap "s")
    ∧ computedDefaultPredicate
          (NewHelperSchemaSchemaInfo sdkHelpers ⟨.nil, litAliasComputedDefault.Elts⟩ aliasInfo)
        = true :=
  ⟨⟨rfl, rfl, rfl, rfl, rfl, rfl,
      ((computed_default_predicate_holds sdkHelpers aliasInfo).1 litAliasComputedDefault
        (.Ident "true") "STRING" "\"test\"" rfl rfl rfl rfl rfl rfl).1⟩,
    (computed_default_predicate_holds sdkHelpers aliasInfo).2.1 _ _ _ sdkInfo,
    (computed_default_predicate_holds sdkHelpers aliasInfo).2.2 (litSchemaMap "s")
      (.BasicLit "STRING" "\"name\"") .nil litAliasComputedDefault.Elts
      (List.mem_singleton.mpr rfl),
    ((computed_default_predicate_holds sdkHelpers aliasInfo).1
      ⟨.nil, litAliasComputedDefault.Elts⟩
      (.Ident "true") "STRING" "\"test\"" rfl rfl rfl rfl rfl rfl).1⟩

/-- Claim C12. For every schema-map literal, `GetSchemaMapAttributeNames` returns exactly
the key expressions of the literal's key-value elements, in source order, one per
element: a key-value element contributes its key, any other element nothing, and the
names of a list of elements are the names of its parts one after the other, so
duplicate names are kept; the length is the number of key-value elements. -/
theorem attributeNames_exact (cl : CompositeLit) :
    GetSchemaMapAttributeNames cl = cl.Elts.filterMap entryKey
    ∧ (GetSchemaMapAttributeNames cl).length
        = cl.Elts.countP (fun elt => (entryKey elt).isSome)
    ∧ (∀ (ty key value : Expr), GetSchemaMapAttributeNames ⟨ty, [.KeyValueExpr key value]⟩ = [key])
    ∧ (∀ (ty elt : Expr), (∀ key value, elt ≠ .KeyValueExpr key value) →
        GetSchemaMapAttributeNames ⟨ty, [elt]⟩ = [])
    ∧ (∀ (ty : Expr) (xs ys : List Expr),
        GetSchemaMapAttributeNames ⟨ty, xs ++ ys⟩
          = GetSchemaMapAttributeNames ⟨ty, xs⟩ ++ GetSchemaMapAttributeNames ⟨ty, ys⟩) := by
  refine ⟨attributeNames_eq cl, ?_, ?_, ?_, ?_⟩
  · rw [attributeNames_eq]
    induction cl.Elts with
    | nil => rfl
    | cons e es ih =>
      cases h : entryKey e with
      | none => simp [List.filterMap_cons, List.countP_cons, h, ih]
      | some k => simp [List.filterMap_cons, List.countP_cons, h, ih]
  · intro ty key value
    rfl
  · intro ty elt h
    cases elt <;> first | rfl | exact absurd rfl (h _ _)
  · intro ty xs ys
    simp only [attributeNames_eq, List.filterMap_append]

/-- Witness of C12: a positional element is skipped, and the map `litMixedMap`, in which
the name `a` occurs twice, has the names `a`, `b`, `a`. -/
theorem attributeNames_exact_witness :
    GetSchemaMapAttributeNames ⟨.nil, [.Ident "positional"]⟩ = []
    ∧ GetSchemaMapAttributeNames litMixedMap
        = [.BasicLit "STRING" "\"a\"", .BasicLit "STRING" "\"b\"", .BasicLit "STRING" "\"a\""]
    ∧ (GetSchemaMapAttributeNames litMixedMap).length = 3 :=
  ⟨(attributeNames_exact ⟨.nil, []⟩).2.2.2.1 .nil (.Ident "positional")
      (fun _ _ h => Expr.noConfusion h),
    (attributeNames_exact litMixedMap).1.trans rfl,
    (attributeNames_exact litMixedMap).2.1.trans (by decide)⟩

/-- Claim C13. For every schema-map literal, `GetSchemaMapSchemas` returns exactly the
values of the key-value elements that are composite literals, in source order and once
per occurrence: such an element contributes its value, any other element nothing, and
the schemas of a list of elements are the schemas of its parts one after the other, so
entries with the same attribute name each contribute their own schema literal; the
number of schemas that a per-entry test flags is the number of elements whose schema
literal it flags. -/
theorem schemas_exact (cl : CompositeLit) :
    GetSchemaMapSchemas cl = cl.Elts.filterMap entrySchema
    ∧ (∀ (ty key vty : Expr) (velts : List Expr),
        GetSchemaMapSchemas ⟨ty, [.KeyValueExpr key (.CompositeLit vty velts)]⟩ = [⟨vty, velts⟩])
    ∧ (∀ (ty elt : Expr), entrySchema elt = none → GetSchemaMapSchemas ⟨ty, [elt]⟩ = [])
    ∧ (∀ (ty : Expr) (xs ys : List Expr),
        GetSchemaMapSchemas ⟨ty, xs ++ ys⟩
          = GetSchemaMapSchemas ⟨ty, xs⟩ ++ GetSchemaMapSchemas ⟨ty, ys⟩)
    ∧ (∀ (offending : CompositeLit → Bool),
        ((GetSchemaMapSchemas cl).filter offending).length
          = cl.Elts.countP (fun elt =>
              match entrySchema elt with
              | some s => offending s
              | none => false)) := by
  refine ⟨schemas_eq cl, ?_, ?_, ?_, ?_⟩
  · intro ty key vty velts
    rfl
  · intro ty elt h
    rw [schemas_eq]
    simp [List.filterMap_cons, h]
  · intro ty xs ys
    simp only [schemas_eq, List.filterMap_append]
  · intro offending
    rw [schemas_eq]
    induction cl.Elts with
    | nil => rfl
    | cons e es ih =>
      cases h : entrySchema e with
      | none => simp [List.filterMap_cons, List.countP_cons, h, ih]
      | some s =>
        cases ho : offending s <;>
          simp [List.filterMap_cons, List.countP_cons, List.filter_cons, h, ho, ih]

/-- Witness of C13: the map `litMixedMap` has an identifier value, which is skipped, and
two entries, one of them repeating the name `a`, whose schema literals both appear; the
map of the test data has its one schema literal. -/
theorem schemas_exact_witness :
    entrySchema (.KeyValueExpr (.BasicLit "STRING" "\"a\"") (.Ident "first")) = none
    ∧ GetSchemaMapSchemas
        ⟨.nil, [.KeyValueExpr (.BasicLit "STRING" "\"a\"") (.Ident "first")]⟩ = []
    ∧ GetSchemaMapSchemas litMixedMap
        = [⟨.nil, [field "Computed" (.Ident "true")]⟩, ⟨.nil, [field "Optional" (.Ident "true")]⟩]
    ∧ GetSchemaMapSchemas (litSchemaMap "s")
        = [⟨.nil, [field "Computed" (.Ident "true"),
            field "Default" (.BasicLit "STRING" "\"test\"")]⟩] :=
  ⟨rfl,
    (schemas_exact ⟨.nil, []⟩).2.2.1 .nil _ rfl,
    (schemas_exact litMixedMap).1.trans rfl,
    (schemas_exact (litSchemaMap "s")).1.trans rfl⟩

/-! ## Repeated fields -/

/-- Claim C14. For every schema literal, a field that is written more than once has its
later occurrence win everywhere in the record built by `NewHelperSchemaSchemaInfo`: for
a key-value element `f: v` after which no element writes `f`, `Fields` maps `f` to that
element, the decoded Schema value of `f` (boolean, integer, string or marker) comes from
`v`, and for the `Type` field the SchemaValueType is the one resolved from `v`. -/
theorem later_occurrence_wins (H : Helpers) (cl : CompositeLit) (info : Info) (f : String)
    (pre post : List Expr) (v : Expr)
    (hElts : cl.Elts = pre ++ Expr.KeyValueExpr (.Ident f) v :: post)
    (hpost : ∀ w, Expr.KeyValueExpr (.Ident f) w ∉ post) :
    (NewHelperSchemaSchemaInfo H cl info).Fields f = some ⟨.Ident f, v⟩
    ∧ (∀ p ∈ boolFields, p.1 = f →
        p.2 (NewHelperSchemaSchemaInfo H cl info).Schema = (H.ExprBoolValue v).getD false)
    ∧ (∀ p ∈ intFields, p.1 = f →
        p.2 (NewHelperSchemaSchemaInfo H cl info).Schema = (H.ExprIntValue v).getD 0)
    ∧ (f = "Description" →
        (NewHelperSchemaSchemaInfo H cl info).Schema.Description
          = (H.ExprStringValue v).getD "")
    ∧ (∀ p ∈ markerFields, p.1 = f →
        p.2 (NewHelperSchemaSchemaInfo H cl info).Schema = (astExprValue v).isSome)
    ∧ (f = "Type" →
        (NewHelperSchemaSchemaInfo H cl info).SchemaValueType
          = if IsHelperSchemaValueType H v info = true then helperSchemaValueTypeString v
            else "") := by
  have hw : writtenValue f cl.Elts = some v := by
    rw [hElts]
    exact writtenValue_of_last f pre post v hpost
  obtain ⟨hComputed, hForceNew, hOptional, hRequired, hSensitive, hMax, hMin, hDesc⟩ :=
    schema_scalar_fields_eq H cl info
  obtain ⟨hConflicts, hDefault, hDiff, hValidate⟩ := newInfo_marker_fields_eq H cl info
  refine ⟨?_, ?_, ?_, ?_, ?_, ?_⟩
  · show astCompositeLitFields cl f = _
    rw [astCompositeLitFields_eq, hw]
    rfl
  · intro p hp hf
    subst hf
    simp only [boolFields, List.mem_cons, List.mem_singleton, List.not_mem_nil, or_false] at hp
    rcases hp with rfl | rfl | rfl | rfl | rfl
    · show (NewHelperSchemaSchemaInfo H cl info).Schema.Computed = _
      rw [hComputed]
      rw [show writtenValue "Computed" cl.Elts = some v from hw]
      rfl
    · show (NewHelperSchemaSchemaInfo H cl info).Schema.ForceNew = _
      rw [hForceNew]
      rw [show writtenValue "ForceNew" cl.Elts = some v from hw]
      rfl
    · show (NewHelperSchemaSchemaInfo H cl info).Schema.Optional = _
      rw [hOptional]
      rw [show writtenValue "Optional" cl.Elts = some v from hw]
      rfl
    · show (NewHelperSchemaSchemaInfo H cl info).Schema.Required = _
      rw [hRequired]
      rw [show writtenValue "Required" cl.Elts = some v from hw]
      rfl
    · show (NewHelperSchemaSchemaInfo H cl info).Schema.Sensitive = _
      rw [hSensitive]
      rw [show writtenValue "Sensitive" cl.Elts = some v from hw]
      rfl
  · intro p hp hf
    subst hf
    simp only [intFields, List.mem_cons, List.mem_singleton, List.not_mem_nil, or_false] at hp
    rcases hp with rfl | rfl
    · show (NewHelperSchemaSchemaInfo H cl info).Schema.MaxItems = _
      rw [hMax]
      rw [show writtenValue "MaxItems" cl.Elts = some v from hw]
      rfl
    · show (NewHelperSchemaSchemaInfo H cl info).Schema.MinItems = _
      rw [hMin]
      rw [show writtenValue "MinItems" cl.Elts = some v from hw]
      rfl
  · intro hf
    subst hf
    rw [hDesc, hw]
    rfl
  · intro p hp hf
    subst hf
    simp only [markerFields, List.mem_cons, List.mem_singleton, List.not_mem_nil, or_false] at hp
    rcases hp with rfl | rfl | rfl | rfl
    · show (NewHelperSchemaSchemaInfo H cl info).Schema.Default.isSome = _
      rw [hDefault]
      rw [show writtenValue "Default" cl.Elts = some v from hw]
      simp only [Option.some_bind]
      cases astExprValue v <;> rfl
    · show (NewHelperSchemaSchemaInfo H cl info).Schema.ValidateFunc.isSome = _
      rw [hValidate]
      rw [show writtenValue "ValidateFunc" cl.Elts = some v from hw]
      simp only [Option.some_bind]
      cases astExprValue v <;> rfl
    · show (NewHelperSchemaSchemaInfo H cl info).Schema.DiffSuppressFunc.isSome = _
      rw [hDiff]
      rw [show writtenValue "DiffSuppressFunc" cl.Elts = some v from hw]
      simp only [Option.some_bind]
      cases astExprValue v <;> rfl
    · show (NewHelperSchemaSchemaInfo H cl info).Schema.ConflictsWith.isSome = _
      rw [hConflicts]
      rw [show writtenValue "ConflictsWith" cl.Elts = some v from hw]
      simp only [Option.some_bind]
      cases astExprValue v <;> rfl
  · intro hf
    subst hf
    show helperSchemaTypeSchemaType H cl info = _
    rw [helperSchemaTypeSchemaType_eq, hw]

/-- Witness of C14: the literal `litDuplicates` writes `Computed: false` and then
`Computed: true`, `Type: schema.TypeString` and then `Type: schema.TypeList`; the
record has the later element of each, Computed true and the value type `TypeList`. -/
theorem later_occurrence_wins_witness :
    ((NewHelperSchemaSchemaInfo sdkHelpers litDuplicates sdkInfo).Fields "Computed"
        = some ⟨.Ident "Computed", .Ident "true"⟩
      ∧ (NewHelperSchemaSchemaInfo sdkHelpers litDuplicates sdkInfo).Schema.Computed = true)
    ∧ ((NewHelperSchemaSchemaInfo sdkHelpers litDuplicates sdkInfo).Fields "Type"
        = some ⟨.Ident "Type", .SelectorExpr (.Ident "schema") "TypeList"⟩
      ∧ (NewHelperSchemaSchemaInfo sdkHelpers litDuplicates sdkInfo).SchemaValueType
        = "TypeList") :=
  ⟨⟨(later_occurrence_wins sdkHelpers litDuplicates sdkInfo "Computed"
        [field "Computed" (.Ident "false"),
         field "Type" (.SelectorExpr (.Ident "schema") "TypeString")]
        [field "Type" (.SelectorExpr (.Ident "schema") "TypeList")] (.Ident "true") rfl
        (fun w h => by simp [field] at h)).1,
      ((later_occurrence_wins sdkHelpers litDuplicates sdkInfo "Computed"
        [field "Computed" (.Ident "false"),
         field "Type" (.SelectorExpr (.Ident "schema") "TypeString")]
        [field "Type" (.SelectorExpr (.Ident "schema") "TypeList")] (.Ident "true") rfl
        (fun w h => by simp [field] at h)).2.1 (SchemaFieldComputed, Schema.Computed)
        (List.mem_cons_self _ _) rfl).trans (by decide)⟩,
    ⟨(later_occurrence_wins sdkHelpers litDuplicates sdkInfo "Type"
        [field "Computed" (.Ident "false"),
         field "Type" (.SelectorExpr (.Ident "schema") "TypeString"),
         field "Computed" (.Ident "true")]
        [] (.SelectorExpr (.Ident "schema") "TypeList") rfl
        (fun w h => by simp at h)).1,
      ((later_occurrence_wins sdkHelpers litDuplicates sdkInfo "Type"
        [field "Computed" (.Ident "false"),
         field "Type" (.SelectorExpr (.Ident "schema") "TypeString"),
         field "Computed" (.Ident "true")]
        [] (.SelectorExpr (.Ident "schema") "TypeList") rfl
        (fun w h => by simp at h)).2.2.2.2.2 rfl).trans (by decide)⟩⟩

/-! ## Rules and suppression -/

/-- Claim C15. For every map literal of resource-level schemas, the naming-convention
rule yields exactly one diagnostic, anchored at the key, for each entry whose attribute
name decodes to a string without an underscore, and none for an entry whose name
contains an underscore: the diagnostics are those of the entries in source order, an
entry of the first kind alone gives its one diagnostic and an entry of the second kind
alone gives none. -/
theorem naming_rule_diagnostics (H : Helpers) (cl : CompositeLit) :
    (namingRule H).diagnostics cl
      = cl.Elts.filterMap (fun elt =>
          match entryKey elt with
          | none => none
          | some key =>
            match H.ExprStringValue key with
            | none => none
            | some name =>
              if hasUnderscore name then none
              else some (⟨"R013", R013Message, key⟩ : Diagnostic))
    ∧ (∀ (ty key value : Expr) (name : String),
        H.ExprStringValue key = some name → hasUnderscore name = false →
        (namingRule H).diagnostics ⟨ty, [.KeyValueExpr key value]⟩
          = [⟨"R013", R013Message, key⟩])
    ∧ (∀ (ty key value : Expr) (name : String),
        H.ExprStringValue key = some name → hasUnderscore name = true →
        (namingRule H).diagnostics ⟨ty, [.KeyValueExpr key value]⟩ = [])
    ∧ (∀ (ty : Expr) (xs ys : List Expr),
        (namingRule H).diagnostics ⟨ty, xs ++ ys⟩
          = (namingRule H).diagnostics ⟨ty, xs⟩ ++ (namingRule H).diagnostics ⟨ty, ys⟩) := by
  have main : ∀ c : CompositeLit, (namingRule H).diagnostics c
      = c.Elts.filterMap (fun elt =>
          match entryKey elt with
          | none => none
          | some key =>
            match H.ExprStringValue key with
            | none => none
            | some name =>
              if hasUnderscore name then none
              else some (⟨"R013", R013Message, key⟩ : Diagnostic)) := by
    intro c
    simp only [Rule.diagnostics, namingRule, attributeNames_eq]
    rw [List.filterMap_filterMap, List.map_filterMap]
    congr 1
    funext elt
    cases entryKey elt with
    | none => rfl
    | some key =>
      simp only [Option.some_bind, Option.bind_eq_bind]
      cases H.ExprStringValue key with
      | none => rfl
      | some name =>
        by_cases hu : hasUnderscore name = true <;> simp [hu]
  refine ⟨main cl, ?_, ?_, ?_⟩
  · intro ty key value name hname hu
    rw [main]
    simp [entryKey, hname, hu]
  · intro ty key value name hname hu
    rw [main]
    simp [entryKey, hname, hu]
  · intro ty xs ys
    simp only [main, List.filterMap_append]

/-- Witness of C15: the test data of R013; the key `"thing"` yields one diagnostic
anchored at the key, the key `"example_thing"` yields none. -/
theorem naming_rule_diagnostics_witness :
    (sdkHelpers.ExprStringValue (.BasicLit "STRING" "\"thing\"") = some "thing"
      ∧ hasUnderscore "thing" = false
      ∧ (namingRule sdkHelpers).diagnostics (litResourceMap "\"thing\"")
          = [⟨"R013", R013Message, .BasicLit "STRING" "\"thing\""⟩])
    ∧ (sdkHelpers.ExprStringValue (.BasicLit "STRING" "\"example_thing\"")
          = some "example_thing"
      ∧ hasUnderscore "example_thing" = true
      ∧ (namingRule sdkHelpers).diagnostics (litResourceMap "\"example_thing\"") = []) :=
  ⟨⟨by decide, by decide,
      (naming_rule_diagnostics sdkHelpers (litResourceMap "\"thing\"")).2.1 _ _ _ "thing"
        (by decide) (by decide)⟩,
    ⟨by decide, by decide,
      (naming_rule_diagnostics sdkHelpers (litResourceMap "\"example_thing\"")).2.2.1 _ _ _
        "example_thing" (by decide) (by decide)⟩⟩

/-- Two directives are the same only for the same rule identifier. -/
theorem lintignoreDirective_injective (a b : String)
    (h : lintignoreDirective a = lintignoreDirective b) : a = b := by
  unfold lintignoreDirective at h
  have hd := congrArg String.data h
  simp only [String.data_append] at hd
  exact String.ext (List.append_cancel_left hd)

/-- A directive for one rule does not change whether another rule is suppressed. -/
theorem isSuppressed_cons_of_ne (comments : List String) (identifier other : String)
    (h : other ≠ identifier) :
    isSuppressed (lintignoreDirective identifier :: comments) other
      = isSuppressed comments other := by
  have hne : ¬ lintignoreDirective other = lintignoreDirective identifier :=
    fun e => h (lintignoreDirective_injective _ _ e)
  simp [isSuppressed, List.contains_cons, hne]

/-- Every diagnostic of an evaluation carries the identifier of one of the rules. -/
theorem evaluate_identifier (rules : List Rule) (cl : CompositeLit) (d : Diagnostic)
    (h : d ∈ evaluate rules cl) : ∃ r ∈ rules, d.Identifier = r.Identifier := by
  simp only [evaluate, List.mem_flatMap, Rule.diagnostics, List.mem_map] at h
  obtain ⟨r, hr, finding, _, rfl⟩ := h
  exact ⟨r, hr, rfl⟩

/-- The report under one more directive is the report without it, less the diagnostics
of the directive's rule. -/
theorem report_cons_directive (rules : List Rule) (comments : List String)
    (cl : CompositeLit) (identifier : String) :
    report rules (lintignoreDirective identifier :: comments) cl
      = (report rules comments cl).filter (fun d => d.Identifier != identifier) := by
  unfold report suppressionFilter
  rw [List.filter_filter]
  apply List.filter_congr
  intro d _
  by_cases h : d.Identifier = identifier
  · simp [h, isSuppressed, List.contains_cons]
  · rw [isSuppressed_cons_of_ne comments identifier d.Identifier h]
    simp [h]

/-- Claim C16. For every map literal with the directive `lintignore:<id>` among the
comments immediately above it, the final diagnostic list of the literal contains no
diagnostic of rule `<id>`, while the diagnostics of every other rule are exactly those
produced without the directive; a directive that names no rule's identifier removes
nothing. -/
theorem suppression_scope (rules : List Rule) (comments : List String) (cl : CompositeLit)
    (identifier : String) :
    (lintignoreDirective identifier ∈ comments →
      ∀ d ∈ report rules comments cl, d.Identifier ≠ identifier)
    ∧ (∀ other, other ≠ identifier →
        (report rules (lintignoreDirective identifier :: comments) cl).filter
            (fun d => d.Identifier == other)
          = (report rules comments cl).filter (fun d => d.Identifier == other))
    ∧ ((∀ r ∈ rules, r.Identifier ≠ identifier) →
        report rules (lintignoreDirective identifier :: comments) cl
          = report rules comments cl) := by
  refine ⟨?_, ?_, ?_⟩
  · intro hmem d hd heq
    simp only [report, suppressionFilter, List.mem_filter] at hd
    have hs : isSuppressed comments d.Identifier = true := by
      rw [heq]
      simp [isSuppressed, hmem]
    rw [hs] at hd
    simp at hd
  · intro other hne
    rw [report_cons_directive, List.filter_filter]
    apply List.filter_congr
    intro d _
    by_cases h : d.Identifier = other
    · simp [h, hne]
    · simp [h]
  · intro hunknown
    rw [report_cons_directive]
    apply List.filter_eq_self.mpr
    intro d hd
    simp only [report, suppressionFilter, List.mem_filter] at hd
    obtain ⟨r, hr, hid⟩ := evaluate_identifier rules cl d hd.1
    have : d.Identifier ≠ identifier := by
      rw [hid]
      exact hunknown r hr
    simp [this]

/-- Witness of C16: the test data of R013; under the comment `lintignore:R013` the map
with the key `"thing"` has no diagnostic, without it and under a directive for an
identifier that no rule has it has its one diagnostic. -/
theorem suppression_scope_witness :
    lintignoreDirective "R013" ∈ ["lintignore:R013"]
    ∧ (∀ d ∈ report [namingRule sdkHelpers] ["lintignore:R013"] (litResourceMap "\"thing\""),
        d.Identifier ≠ "R013")
    ∧ (report [namingRule sdkHelpers] ["lintignore:R013"] (litResourceMap "\"thing\"")).length
        = 0
    ∧ (report [namingRule sdkHelpers] [] (litResourceMap "\"thing\"")).length = 1
    ∧ report [namingRule sdkHelpers] [lintignoreDirective "X000"] (litResourceMap "\"thing\"")
        = report [namingRule sdkHelpers] [] (litResourceMap "\"thing\"") :=
  ⟨by decide,
    (suppression_scope [namingRule sdkHelpers] ["lintignore:R013"] (litResourceMap "\"thing\"")
      "R013").1 (by decide),
    by decide, by decide,
    (suppression_scope [namingRule sdkHelpers] [] (litResourceMap "\"thing\"") "X000").2.2
      (fun r hr => by
        rw [List.mem_singleton.mp hr]
        decide)⟩

/-! ## Consistency of the record -/

/-- The zero-value query of a built record, by the decoded written value. -/
theorem declaresBoolFieldWithZeroValue_eq (H : Helpers) (cl : CompositeLit) (info : Info)
    (f : String) :
    (NewHelperSchemaSchemaInfo H cl info).DeclaresBoolFieldWithZeroValue H f
      = match (writtenValue f cl.Elts).bind H.ExprBoolValue with
        | some b => !b
        | none => false := by
  simp only [HelperSchemaSchemaInfo.DeclaresBoolFieldWithZeroValue, NewHelperSchemaSchemaInfo,
    astCompositeLitFields_eq]
  cases writtenValue f cl.Elts with
  | none => rfl
  | some v =>
    simp only [Option.map_some', Option.some_bind]
    cases H.ExprBoolValue v <;> rfl

/-- A boolean field that equals the decoded written value agrees with both queries. -/
theorem bool_field_agrees (H : Helpers) (cl : CompositeLit) (info : Info) (f : String)
    (b : Bool) (hb : b = ((writtenValue f cl.Elts).bind H.ExprBoolValue).getD false) :
    (b = true →
      (NewHelperSchemaSchemaInfo H cl info).DeclaresField f = true
      ∧ (NewHelperSchemaSchemaInfo H cl info).DeclaresBoolFieldWithZeroValue H f = false)
    ∧ ((NewHelperSchemaSchemaInfo H cl info).DeclaresBoolFieldWithZeroValue H f = true →
      (NewHelperSchemaSchemaInfo H cl info).DeclaresField f = true ∧ b = false) := by
  rw [declaresField_eq, declaresBoolFieldWithZeroValue_eq, hb]
  cases writtenValue f cl.Elts with
  | none => simp
  | some v =>
    simp only [Option.some_bind, Option.isSome_some]
    cases H.ExprBoolValue v with
    | none => simp
    | some d => cases d <;> simp

/-- Claim C17. The decoded Schema and the declaration queries of a record built by
`NewHelperSchemaSchemaInfo` never contradict each other: for each boolean field among
Computed, ForceNew, Optional, Required, Sensitive, a decoded value true implies that
`DeclaresField` is true and `DeclaresBoolFieldWithZeroValue` is false, and
`DeclaresBoolFieldWithZeroValue` true implies that `DeclaresField` is true and the
decoded value is false; and a marker field (Default, ValidateFunc, DiffSuppressFunc,
ConflictsWith) that is non-nil in Schema implies `DeclaresField` of its name. -/
theorem decoded_and_declared_agree (H : Helpers) (cl : CompositeLit) (info : Info) :
    (∀ p ∈ boolFields,
      (p.2 (NewHelperSchemaSchemaInfo H cl info).Schema = true →
        (NewHelperSchemaSchemaInfo H cl info).DeclaresField p.1 = true
        ∧ (NewHelperSchemaSchemaInfo H cl info).DeclaresBoolFieldWithZeroValue H p.1 = false)
      ∧ ((NewHelperSchemaSchemaInfo H cl info).DeclaresBoolFieldWithZeroValue H p.1 = true →
        (NewHelperSchemaSchemaInfo H cl info).DeclaresField p.1 = true
        ∧ p.2 (NewHelperSchemaSchemaInfo H cl info).Schema = false))
    ∧ (∀ p ∈ markerFields,
      p.2 (NewHelperSchemaSchemaInfo H cl info).Schema = true →
        (NewHelperSchemaSchemaInfo H cl info).DeclaresField p.1 = true) := by
  obtain ⟨hComputed, hForceNew, hOptional, hRequired, hSensitive, -, -, -⟩ :=
    schema_scalar_fields_eq H cl info
  obtain ⟨hConflicts, hDefault, hDiff, hValidate⟩ := newInfo_marker_fields_eq H cl info
  constructor
  · intro p hp
    simp only [boolFields, List.mem_cons, List.mem_singleton, List.not_mem_nil, or_false] at hp
    rcases hp with rfl | rfl | rfl | rfl | rfl
    · exact bool_field_agrees H cl info "Computed" _ hComputed
    · exact bool_field_agrees H cl info "ForceNew" _ hForceNew
    · exact bool_field_agrees H cl info "Optional" _ hOptional
    · exact bool_field_agrees H cl info "Required" _ hRequired
    · exact bool_field_agrees H cl info "Sensitive" _ hSensitive
  · have marker : ∀ (f : String) (β : Type) (b : β) (o : Option β),
        o = ((writtenValue f cl.Elts).bind astExprValue).map (fun _ => b) →
        o.isSome = true → (NewHelperSchemaSchemaInfo H cl info).DeclaresField f = true := by
      intro f β b o ho hs
      rw [declaresField_eq]
      rw [ho] at hs
      cases hw : writtenValue f cl.Elts with
      | none => rw [hw] at hs; simp at hs
      | some v => rfl
    intro p hp
    simp only [markerFields, List.mem_cons, List.mem_singleton, List.not_mem_nil, or_false] at hp
    rcases hp with rfl | rfl | rfl | rfl
    · exact marker "Default" _ _ _ hDefault
    · exact marker "ValidateFunc" _ _ _ hValidate
    · exact marker "DiffSuppressFunc" _ _ _ hDiff
    · exact marker "ConflictsWith" _ _ _ hConflicts

/-- Witness of C17: in `litComputedDefault` Computed decodes to true and Default is
declared; in `litMixed` Optional is written as `false`. -/
theorem decoded_and_declared_agree_witness :
    ((NewHelperSchemaSchemaInfo sdkHelpers litComputedDefault sdkInfo).Schema.Computed = true
      ∧ (NewHelperSchemaSchemaInfo sdkHelpers litComputedDefault sdkInfo).DeclaresField
          "Computed" = true
      ∧ (NewHelperSchemaSchemaInfo sdkHelpers litComputedDefault
          sdkInfo).DeclaresBoolFieldWithZeroValue sdkHelpers "Computed" = false)
    ∧ ((NewHelperSchemaSchemaInfo sdkHelpers litMixed sdkInfo).DeclaresBoolFieldWithZeroValue
          sdkHelpers "Optional" = true
      ∧ (NewHelperSchemaSchemaInfo sdkHelpers litMixed sdkInfo).DeclaresField "Optional" = true
      ∧ (NewHelperSchemaSchemaInfo sdkHelpers litMixed sdkInfo).Schema.Optional = false)
    ∧ ((NewHelperSchemaSchemaInfo sdkHelpers litComputedDefault sdkInfo).Schema.Default.isSome
          = true
      ∧ (NewHelperSchemaSchemaInfo sdkHelpers litComputedDefault sdkInfo).DeclaresField
          "Default" = true) :=
  ⟨⟨by decide,
      (((decoded_and_declared_agree sdkHelpers litComputedDefault sdkInfo).1
        (SchemaFieldComputed, Schema.Computed) (by simp [boolFields])).1 (by decide))⟩,
    ⟨by decide,
      (((decoded_and_declared_agree sdkHelpers litMixed sdkInfo).1
        (SchemaFieldOptional, Schema.Optional) (by simp [boolFields])).2 (by decide))⟩,
    ⟨by decide,
      (decoded_and_declared_agree sdkHelpers litComputedDefault sdkInfo).2
        (SchemaFieldDefault, fun s => s.Default.isSome) (by simp [markerFields]) (by decide)⟩⟩

/-! ## Names and schemas of a map, side by side -/

/-- Spec-side reading of "the value of every key-value element is a composite literal",
by the readers `entryKey` and `entrySchema`. -/
theorem all_values_literal_iff (elts : List Expr) :
    (∀ e ∈ elts, ∀ key value, e = Expr.KeyValueExpr key value →
        ∃ ty es, value = Expr.CompositeLit ty es)
      ↔ ∀ e ∈ elts, (entryKey e).isSome = true → (entrySchema e).isSome = true := by
  constructor
  · intro h e he hk
    cases e with
    | KeyValueExpr key value =>
      obtain ⟨ty, es, rfl⟩ := h _ he key value rfl
      rfl
    | _ => simp [entryKey] at hk
  · intro h e he key value heq
    subst heq
    have := h _ he rfl
    cases value with
    | CompositeLit ty es => exact ⟨ty, es, rfl⟩
    | _ => simp [entrySchema] at this

/-- There are at most as many schema literals as keys. -/
theorem schemas_length_le (elts : List Expr) :
    (elts.filterMap entrySchema).length ≤ (elts.filterMap entryKey).length := by
  induction elts with
  | nil => simp
  | cons e es ih =>
    cases hs : entrySchema e with
    | none =>
      cases hk : entryKey e with
      | none => simpa [List.filterMap_cons, hs, hk] using ih
      | some k =>
        simp only [List.filterMap_cons, hs, hk, List.length_cons]
        omega
    | some s =>
      have hk := entryKey_isSome_of_entrySchema e (by rw [hs]; rfl)
      obtain ⟨k, hk⟩ := Option.isSome_iff_exists.mp hk
      simp only [List.filterMap_cons, hs, hk, List.length_cons]
      omega

/-- As many schema literals as keys exactly when every element with a key has a schema
literal. -/
theorem schemas_length_eq_iff (elts : List Expr) :
    (elts.filterMap entrySchema).length = (elts.filterMap entryKey).length
      ↔ ∀ e ∈ elts, (entryKey e).isSome = true → (entrySchema e).isSome = true := by
  induction elts with
  | nil => simp
  | cons e es ih =>
    have hle := schemas_length_le es
    cases hs : entrySchema e with
    | none =>
      cases hk : entryKey e with
      | none =>
        simp only [List.filterMap_cons, hs, hk, List.mem_cons, forall_eq_or_imp]
        simpa using ih
      | some k =>
        simp only [List.filterMap_cons, hs, hk, List.length_cons, List.mem_cons,
          forall_eq_or_imp]
        constructor
        · intro h
          omega
        · intro h
          have := h.1 rfl
          simp at this
    | some s =>
      have hk := entryKey_isSome_of_entrySchema e (by rw [hs]; rfl)
      obtain ⟨k, hk⟩ := Option.isSome_iff_exists.mp hk
      simp only [List.filterMap_cons, hs, hk, List.length_cons, List.mem_cons,
        forall_eq_or_imp, Nat.add_right_cancel_iff]
      simpa using ih

/-- When every element with a key has a schema literal, the keys paired by index with
the schema literals are the pairs of the elements. -/
theorem zip_all_literal (elts : List Expr)
    (h : ∀ e ∈ elts, (entryKey e).isSome = true → (entrySchema e).isSome = true) :
    List.zip (elts.filterMap entryKey) (elts.filterMap entrySchema)
      = elts.filterMap entryPair := by
  induction elts with
  | nil => rfl
  | cons e es ih =>
    have ih2 := ih (fun x hx => h x (List.mem_cons_of_mem _ hx))
    have he := h e (List.mem_cons_self _ _)
    cases e with
    | KeyValueExpr key value =>
      cases value with
      | CompositeLit ty vs =>
        simp only [List.filterMap_cons, entryKey, entrySchema, entryPair, List.zip_cons_cons]
        rw [ih2]
      | _ => simp [entryKey, entrySchema] at he
    | _ => simpa [List.filterMap_cons, entryKey, entrySchema, entryPair] using ih2

/-- Elements without a schema literal contribute no schema and no pair. -/
theorem no_schema_no_pair (elts : List Expr) (h : ∀ e ∈ elts, entrySchema e = none) :
    elts.filterMap entrySchema = [] ∧ elts.filterMap entryPair = [] := by
  induction elts with
  | nil => exact ⟨rfl, rfl⟩
  | cons e es ih =>
    obtain ⟨h1, h2⟩ := ih (fun x hx => h x (List.mem_cons_of_mem _ hx))
    have he := h e (List.mem_cons_self _ _)
    have hp : entryPair e = none := by
      cases e with
      | KeyValueExpr key value =>
        cases value <;> first | rfl | simp [entrySchema] at he
      | _ => rfl
    exact ⟨by simp [List.filterMap_cons, he, h1], by simp [List.filterMap_cons, hp, h2]⟩

/-- Counterexample to C18 as stated: in `litTrailingMap` the value of the last entry is
an identifier, so the two lists differ in length, and pairing them by index still
associates the one schema with the name of its own entry. -/
theorem index_pairing_right_with_trailing_identifier :
    (GetSchemaMapSchemas litTrailingMap).length
        ≠ (GetSchemaMapAttributeNames litTrailingMap).length
    ∧ entrySchema (.KeyValueExpr (.BasicLit "STRING" "\"b\"") (.Ident "second")) = none
    ∧ List.zip (GetSchemaMapAttributeNames litTrailingMap) (GetSchemaMapSchemas litTrailingMap)
        = litTrailingMap.Elts.filterMap entryPair
    ∧ litTrailingMap.Elts.filterMap entryPair
        = [(.BasicLit "STRING" "\"a\"", ⟨.nil, [field "Computed" (.Ident "true")]⟩)] :=
  ⟨by decide, rfl, rfl, rfl⟩

/-- Claim C18, amended. For every composite literal, the list of `GetSchemaMapSchemas` is
no longer than the list of `GetSchemaMapAttributeNames`; the two lengths are equal if
and only if the value of every key-value element is a composite literal, and in that
case the names paired by index with the schemas are the pairs of the key-value
elements.  The pairing is also that of the elements when the elements whose value is
not a composite literal all come last; and at the first key-value element whose value
is not a composite literal, its name stands at the index of the schema of the next
element that has one. -/
theorem names_and_schemas_by_index (cl : CompositeLit) :
    (GetSchemaMapSchemas cl).length ≤ (GetSchemaMapAttributeNames cl).length
    ∧ ((GetSchemaMapSchemas cl).length = (GetSchemaMapAttributeNames cl).length
        ↔ ∀ e ∈ cl.Elts, ∀ key value, e = Expr.KeyValueExpr key value →
            ∃ ty es, value = Expr.CompositeLit ty es)
    ∧ ((∀ e ∈ cl.Elts, ∀ key value, e = Expr.KeyValueExpr key value →
          ∃ ty es, value = Expr.CompositeLit ty es) →
        List.zip (GetSchemaMapAttributeNames cl) (GetSchemaMapSchemas cl)
          = cl.Elts.filterMap entryPair)
    ∧ (∀ (ty : Expr) (pre post : List Expr),
        (∀ e ∈ pre, (entryKey e).isSome = true → (entrySchema e).isSome = true) →
        (∀ e ∈ post, entrySchema e = none) →
        List.zip (GetSchemaMapAttributeNames ⟨ty, pre ++ post⟩)
            (GetSchemaMapSchemas ⟨ty, pre ++ post⟩)
          = (pre ++ post).filterMap entryPair)
    ∧ (∀ (ty : Expr) (pre post : List Expr) (key value : Expr),
        (∀ e ∈ pre, (entryKey e).isSome = true → (entrySchema e).isSome = true) →
        entrySchema (.KeyValueExpr key value) = none →
        (GetSchemaMapAttributeNames ⟨ty, pre ++ Expr.KeyValueExpr key value :: post⟩)[
            (GetSchemaMapSchemas ⟨ty, pre⟩).length]? = some key
        ∧ (GetSchemaMapSchemas ⟨ty, pre ++ Expr.KeyValueExpr key value :: post⟩)[
            (GetSchemaMapSchemas ⟨ty, pre⟩).length]? = (GetSchemaMapSchemas ⟨ty, post⟩)[0]?) := by
  refine ⟨?_, ?_, ?_, ?_, ?_⟩
  · rw [schemas_eq, attributeNames_eq]
    exact schemas_length_le cl.Elts
  · rw [schemas_eq, attributeNames_eq, all_values_literal_iff]
    exact schemas_length_eq_iff cl.Elts
  · intro h
    rw [schemas_eq, attributeNames_eq]
    exact zip_all_literal cl.Elts ((all_values_literal_iff cl.Elts).mp h)
  · intro ty pre post hpre hpost
    obtain ⟨hs, hp⟩ := no_schema_no_pair post hpost
    simp only [schemas_eq, attributeNames_eq, List.filterMap_append, hs, hp, List.append_nil]
    rw [← zip_all_literal pre hpre]
    have hlen := (schemas_length_eq_iff pre).mpr hpre
    have := @List.zip_append _ _ (pre.filterMap entryKey) (post.filterMap entryKey)
      (pre.filterMap entrySchema) ([] : List CompositeLit) hlen.symm
    simpa using this
  · intro ty pre post key value hpre hval
    have hlen := (schemas_length_eq_iff pre).mpr hpre
    simp only [schemas_eq, attributeNames_eq, List.filterMap_append, List.filterMap_cons, hval,
      entryKey]
    constructor
    · rw [hlen, List.getElem?_append_right (Nat.le_refl _), Nat.sub_self]
      simp
    · rw [List.getElem?_append_right (Nat.le_refl _), Nat.sub_self]

/-- Witness of C18 amended: the map of the test data has one name and one schema, of the
same entry; in `litMixedMap` the first value is an identifier, the lengths are 3 and 2,
and the name `a` of that entry stands at the index of the schema of the entry `b`. -/
theorem names_and_schemas_by_index_witness :
    ((GetSchemaMapSchemas (litSchemaMap "s")).length
        = (GetSchemaMapAttributeNames (litSchemaMap "s")).length
      ∧ List.zip (GetSchemaMapAttributeNames (litSchemaMap "s"))
          (GetSchemaMapSchemas (litSchemaMap "s"))
        = (litSchemaMap "s").Elts.filterMap entryPair)
    ∧ (GetSchemaMapSchemas litMixedMap).length ≤ (GetSchemaMapAttributeNames litMixedMap).length
    ∧ ((GetSchemaMapAttributeNames litMixedMap)[0]? = some (.BasicLit "STRING" "\"a\"")
      ∧ (GetSchemaMapSchemas litMixedMap)[0]?
          = some ⟨.nil, [field "Computed" (.Ident "true")]⟩) :=
  have hall : ∀ e ∈ (litSchemaMap "s").Elts, ∀ key value, e = Expr.KeyValueExpr key value →
      ∃ ty es, value = Expr.CompositeLit ty es := by
    intro e he key value heq
    rw [List.mem_singleton.mp he] at heq
    cases heq
    exact ⟨_, _, rfl⟩
  ⟨⟨(names_and_schemas_by_index (litSchemaMap "s")).2.1.mpr hall,
      (names_and_schemas_by_index (litSchemaMap "s")).2.2.1 hall⟩,
    (names_and_schemas_by_index litMixedMap).1,
    ⟨((names_and_schemas_by_index litMixedMap).2.2.2.2 litMixedMap.Type_ []
        (litMixedMap.Elts.drop 1) (.BasicLit "STRING" "\"a\"") (.Ident "first")
        (fun e he => by simp at he) rfl).1,
      (((names_and_schemas_by_index litMixedMap).2.2.2.2 litMixedMap.Type_ []
        (litMixedMap.Elts.drop 1) (.BasicLit "STRING" "\"a\"") (.Ident "first")
        (fun e he => by simp at he) rfl).2).trans rfl⟩⟩

/-! ## Value-type tests -/

/-- The loop of `IsOneOfTypes` finds a name exactly when some listed name passes
`IsType`. -/
theorem isOneOfTypes_iff (info : HelperSchemaSchemaInfo) (vs : List String) :
    info.IsOneOfTypes vs = true ↔ ∃ v ∈ vs, info.IsType v = true := by
  induction vs with
  | nil => simp [HelperSchemaSchemaInfo.IsOneOfTypes]
  | cons v rest ih =>
    unfold HelperSchemaSchemaInfo.IsOneOfTypes
    by_cases h : (info.SchemaValueType == v) = true
    · rw [if_pos h]
      exact ⟨fun _ => ⟨v, List.mem_cons_self _ _, h⟩, fun _ => rfl⟩
    · simp only [h, if_false, ih, List.mem_cons, exists_eq_or_imp,
        HelperSchemaSchemaInfo.IsType, false_or, Bool.false_eq_true]

/-- Claim C19. For every HelperSchemaSchemaInfo and every list of value-type names,
`IsOneOfTypes` is true if and only if `IsType` is true for some name of the list; so
`IsOneOfTypes` of the empty list is false, of a one-element list it is `IsType` of the
element, and it is the same for two lists with the same members, whatever their order
and repetitions.  For a record whose value type is unresolved (empty SchemaValueType),
`IsType` is false for each of the seven value-type names and `IsOneOfTypes` is false
for every list of them. -/
theorem isOneOfTypes_spec (info : HelperSchemaSchemaInfo) :
    (∀ vs, info.IsOneOfTypes vs = true ↔ ∃ v ∈ vs, info.IsType v = true)
    ∧ info.IsOneOfTypes [] = false
    ∧ (∀ v, info.IsOneOfTypes [v] = info.IsType v)
    ∧ (∀ vs ws, (∀ v, v ∈ vs ↔ v ∈ ws) → info.IsOneOfTypes vs = info.IsOneOfTypes ws)
    ∧ (info.SchemaValueType = "" →
        (∀ v ∈ valueTypeNames, info.IsType v = false)
        ∧ (∀ vs, (∀ v ∈ vs, v ∈ valueTypeNames) → info.IsOneOfTypes vs = false)) := by
  refine ⟨isOneOfTypes_iff info, rfl, ?_, ?_, ?_⟩
  · intro v
    unfold HelperSchemaSchemaInfo.IsOneOfTypes HelperSchemaSchemaInfo.IsOneOfTypes
      HelperSchemaSchemaInfo.IsType
    cases info.SchemaValueType == v <;> rfl
  · intro vs ws h
    rw [Bool.eq_iff_iff, isOneOfTypes_iff, isOneOfTypes_iff]
    constructor
    · rintro ⟨v, hv, ht⟩
      exact ⟨v, (h v).mp hv, ht⟩
    · rintro ⟨v, hv, ht⟩
      exact ⟨v, (h v).mpr hv, ht⟩
  · intro hempty
    have hType : ∀ v ∈ valueTypeNames, info.IsType v = false := by
      intro v hv
      unfold HelperSchemaSchemaInfo.IsType
      rw [hempty]
      simp only [valueTypeNames, List.mem_cons, List.mem_singleton, List.not_mem_nil,
        or_false] at hv
      rcases hv with rfl | rfl | rfl | rfl | rfl | rfl | rfl <;> decide
    refine ⟨hType, ?_⟩
    intro vs hvs
    cases hr : info.IsOneOfTypes vs with
    | false => rfl
    | true =>
      obtain ⟨v, hv, ht⟩ := (isOneOfTypes_iff info vs).mp hr
      rw [hType v (hvs v hv)] at ht
      cases ht

/-- Witness of C19: the record of `litMixed` has the value type `TypeList`, which is
found in a list whatever its place; the record of `litComputedDefault` has none, and
none of the seven names matches it. -/
theorem isOneOfTypes_spec_witness :
    (NewHelperSchemaSchemaInfo sdkHelpers litMixed sdkInfo).IsOneOfTypes
        ["TypeSet", "TypeList"] = true
    ∧ (NewHelperSchemaSchemaInfo sdkHelpers litMixed sdkInfo).IsOneOfTypes
        ["TypeList", "TypeSet", "TypeList"]
      = (NewHelperSchemaSchemaInfo sdkHelpers litMixed sdkInfo).IsOneOfTypes
        ["TypeSet", "TypeList"]
    ∧ ((NewHelperSchemaSchemaInfo sdkHelpers litComputedDefault sdkInfo).SchemaValueType = ""
      ∧ (NewHelperSchemaSchemaInfo sdkHelpers litComputedDefault sdkInfo).IsOneOfTypes
          valueTypeNames = false) :=
  ⟨((isOneOfTypes_spec (NewHelperSchemaSchemaInfo sdkHelpers litMixed sdkInfo)).1 _).mpr
      ⟨"TypeList", by decide, by decide⟩,
    (isOneOfTypes_spec (NewHelperSchemaSchemaInfo sdkHelpers litMixed sdkInfo)).2.2.2.1 _ _
      (fun v => by simp [or_comm]),
    ⟨by decide,
      ((isOneOfTypes_spec (NewHelperSchemaSchemaInfo sdkHelpers litComputedDefault
        sdkInfo)).2.2.2.2 (by decide)).2 valueTypeNames (fun _ h => h)⟩⟩

end terraformtype
